import Mathlib

/-!
# currency-converter-v2: rate resolution and conversion

A shallow embedding of `internal/service/currency_service.go` and
`pkg/cache/redis_client.go`.

* Go strings are byte sequences (`GoString`), `len` counts bytes.
* `float64` is modelled by its IEEE-754 binary64 bit pattern (`Float64`), with
  comparison and round-to-nearest-even multiplication computed on the bits.
* Everything outside the repository (the Redis server, the HTTP transport, the
  Go standard library functions whose tables or parsers are not part of the
  repository) is a field of `Lib`, `RedisConn` or `CurrencyService`.
* Every function returns a `Run`: the list of observable events it performed
  (log calls, Redis commands, HTTP requests, spawned goroutines) and either its
  return values or a runtime panic.
-/

set_option maxRecDepth 8000

namespace CurrencyConverter

/-! ## Go strings -/

/-- Go strings are immutable byte sequences; a byte is a number below 256. -/
abbrev GoString := List Nat

/-- The bytes (UTF-8) of a string literal of the source. -/
def go (s : String) : GoString :=
  s.data.flatMap (fun c => (String.utf8EncodeChar c).map UInt8.toNat)

/-- Go builtin `len` on a string: the number of bytes. -/
def len (s : GoString) : Nat := s.length

/-- Go `strings.Index`; `none` stands for the result -1. -/
def Index : GoString → GoString → Option Nat
  | [], sub => if sub.isPrefixOf [] then some 0 else none
  | c :: t, sub => if sub.isPrefixOf (c :: t) then some 0 else (Index t sub).map (· + 1)

/-- Go `strings.Contains`. -/
def Contains (s sub : GoString) : Bool := (Index s sub).isSome

/-- Go `strings.Replace(s, old, new, 1)`: the first occurrence of `old` replaced. -/
def Replace1 (s old new : GoString) : GoString :=
  match Index s old with
  | none => s
  | some i => s.take i ++ new ++ s.drop (i + old.length)

/-- The byte test of the ASCII fast path of `strings.ToUpper`: `c < utf8.RuneSelf`. -/
def isASCII (s : GoString) : Bool := s.all (fun c => c < 128)

/-- The byte map of the ASCII fast path of `strings.ToUpper`. -/
def upperByte (c : Nat) : Nat := if 97 ≤ c ∧ c ≤ 122 then c - 32 else c

/-- Decimal text of an integer, as `%d` prints it. -/
def itoa (n : Int) : GoString := go (toString n)

/-! ## float64 -/

/-- An IEEE-754 binary64 value, given by its 64-bit pattern. -/
structure Float64 where
  bits : Nat
deriving DecidableEq, Repr

namespace Float64

def sign (x : Float64) : Bool := x.bits / 2 ^ 63 % 2 = 1
def expo (x : Float64) : Nat := x.bits / 2 ^ 52 % 2 ^ 11
def frac (x : Float64) : Nat := x.bits % 2 ^ 52
def isNaN (x : Float64) : Bool := x.expo = 2047 ∧ x.frac ≠ 0
def isInf (x : Float64) : Bool := x.expo = 2047 ∧ x.frac = 0
def isZero (x : Float64) : Bool := x.expo = 0 ∧ x.frac = 0
def NaN : Float64 := ⟨0x7FF8000000000001⟩
def inf (neg : Bool) : Float64 := ⟨(if neg then 2 ^ 63 else 0) + 2047 * 2 ^ 52⟩
def signedZero (neg : Bool) : Float64 := ⟨if neg then 2 ^ 63 else 0⟩

/-- Significand of a finite value: the value is `sig * 2 ^ (ex - 1074)`. -/
def sig (x : Float64) : Nat := if x.expo = 0 then x.frac else 2 ^ 52 + x.frac
/-- Exponent of a finite value, offset by 1074. -/
def ex (x : Float64) : Nat := if x.expo = 0 then 0 else x.expo - 1

/-- Number of binary digits of `p` (for `p < 2 ^ fuel`). -/
def bitLen : Nat → Nat → Nat
  | 0, _ => 0
  | fuel + 1, p => if p = 0 then 0 else bitLen fuel (p / 2) + 1

/-- The integer nearest to `p / 2 ^ s`, ties to even. -/
def roundShift (p s : Nat) : Nat :=
  let fl := p / 2 ^ s
  let rem := p % 2 ^ s
  let half := 2 ^ (s - 1)
  if s = 0 then p
  else if rem < half then fl
  else if rem > half then fl + 1
  else if fl % 2 = 0 then fl else fl + 1

/-- The binary64 value nearest (ties to even) to `p * 2 ^ (t - 2148)`, for `0 < p < 2 ^ 128`. -/
def roundPack (neg : Bool) (p t : Nat) : Float64 :=
  let u := (t + bitLen 128 p) - 1127
  let m := if t ≤ u + 1074 then roundShift p (u + 1074 - t) else p * 2 ^ (t - (u + 1074))
  let b := u * 2 ^ 52 + m
  if b ≥ 2047 * 2 ^ 52 then inf neg else ⟨(if neg then 2 ^ 63 else 0) + b⟩

/-- Go `a * b` on float64 (IEEE-754 multiplication, round to nearest even). Every NaN
result is the one quiet NaN `NaN`: the payload, which the hardware picks, is not modelled. -/
def mul (a b : Float64) : Float64 :=
  if a.isNaN || b.isNaN then NaN
  else
    let s := a.sign != b.sign
    if a.isInf then (if b.isZero then NaN else inf s)
    else if b.isInf then (if a.isZero then NaN else inf s)
    else if a.isZero || b.isZero then signedZero s
    else roundPack s (a.sig * b.sig) (a.ex + b.ex)

/-- Order key of a value that is not NaN: sign and magnitude as an integer. -/
def key (x : Float64) : Int :=
  if x.sign then -((x.bits % 2 ^ 63 : Nat) : Int) else ((x.bits % 2 ^ 63 : Nat) : Int)

/-- Go `a <= b` on float64. -/
def le (a b : Float64) : Bool := !a.isNaN && !b.isNaN && decide (a.key ≤ b.key)
/-- Go `a < b` on float64. -/
def lt (a b : Float64) : Bool := !a.isNaN && !b.isNaN && decide (a.key < b.key)

/-- The finite value `x`, positive and below `2 ^ 53`, is a binary64 nearest to the fraction
`n / d`: it is within half a unit in the last place. -/
def nearestTo (x : Float64) (n d : Nat) : Bool :=
  let k := 1074 - x.ex
  !x.sign && x.expo != 2047 && decide (x.ex ≤ 1074) &&
    decide (2 * ((x.sig * d : Int) - n * 2 ^ k).natAbs ≤ d)

/-- The constant `0`. -/
def zero : Float64 := ⟨0⟩
/-- The constant `1.0`. -/
def one : Float64 := ⟨0x3FF0000000000000⟩
/-- The constant `0.85`. -/
def c0_85 : Float64 := ⟨0x3FEB333333333333⟩
/-- The constant `0.9`. -/
def c0_9 : Float64 := ⟨0x3FECCCCCCCCCCCCD⟩
/-- The constant `9.0`. -/
def c9 : Float64 := ⟨0x4022000000000000⟩
/-- The constant `10`. -/
def c10 : Float64 := ⟨0x4024000000000000⟩
/-- The constant `85.0`. -/
def c85 : Float64 := ⟨0x4055400000000000⟩
/-- The constant `100`. -/
def c100 : Float64 := ⟨0x4059000000000000⟩

end Float64

/-! ## Errors, log fields, events -/

/-- A Go `error` value, seen through `Error()` and `Unwrap()`. -/
inductive GoError
  /-- An error with a message and nothing to unwrap (`fmt.Errorf` without `%w`, or a library error). -/
  | errorf (msg : GoString)
  /-- The error made by `fmt.Errorf(pfx + "%w", inner)`. -/
  | wrapped (pfx : GoString) (inner : GoError)
deriving DecidableEq, Repr

/-- The method `Error()`. -/
def GoError.Error : GoError → GoString
  | .errorf msg => msg
  | .wrapped pfx inner => pfx ++ inner.Error

/-- The function `errors.Unwrap`. -/
def GoError.Unwrap : GoError → Option GoError
  | .errorf _ => none
  | .wrapped _ inner => some inner

/-- Levels of the zap logger. -/
inductive Level
  | debug | info | warn | error
deriving DecidableEq, Repr

/-- A structured log field: `zap.String`, `zap.Float64`, `zap.Int`, `zap.Error`,
`zap.Duration`, `zap.Strings`. -/
inductive Field
  | str (key val : GoString)
  | f64 (key : GoString) (val : Float64)
  | int (key : GoString) (val : Int)
  | err (val : GoError)
  | dur (key : GoString) (val : Int)
  | strs (key : GoString) (val : List GoString)
deriving DecidableEq, Repr

/-- The body of a detached goroutine. -/
inductive Goroutine
  /-- The closure of `GetExchangeRate`: `s.redis.SetExchangeRate(caheCtx, from, to, rateAPI)`
  under its own 2 second deadline. -/
  | cacheWrite (cFrom cTo : GoString) (rateAPI : Float64)
deriving DecidableEq, Repr

/-- What a call does that can be observed from outside, in program order. -/
inductive Event
  /-- A call of the logger. -/
  | log (level : Level) (msg : GoString) (fields : List Field)
  /-- The command `GET key` sent through the Redis client. -/
  | redisGet (key : GoString)
  /-- The command `SET key value` with expiry `ttl`. -/
  | redisSet (key : GoString) (value : Float64) (ttl : Int)
  /-- The command `DEL key`. -/
  | redisDel (key : GoString)
  /-- The request `GET url` handed to `httpClient.Do`. -/
  | httpDo (url : GoString)
  /-- The statement `go func() ...`. -/
  | spawn (task : Goroutine)
deriving DecidableEq, Repr

def Event.isCacheLookup : Event → Bool
  | .redisGet _ => true
  | _ => false

def Event.isOriginFetch : Event → Bool
  | .httpDo _ => true
  | _ => false

def Event.isCacheWrite : Event → Bool
  | .redisSet _ _ _ => true
  | .spawn (.cacheWrite _ _ _) => true
  | _ => false

/-- How a call ends: it returns, or the goroutine panics. -/
inductive Outcome (α : Type)
  | ret (a : α)
  | panic (msg : GoString)
deriving DecidableEq, Repr

/-- A finished call: its events and its outcome. -/
structure Run (α : Type) where
  trace : List Event
  out : Outcome α
deriving DecidableEq, Repr

/-- The panic of a field access through a nil pointer. -/
def nilDereference : GoString := go "runtime error: invalid memory address or nil pointer dereference"

/-! ## Configuration and collaborators outside the repository -/

structure APIConfig where
  CurrencyKeyAPI : GoString
  CurrencyAPIURL : GoString
  Timeout : Int

structure RedisConfig where
  Addr : GoString
  Password : GoString
  DB : Int
  TTL : Int

structure Config where
  API : APIConfig
  Redis : RedisConfig

/-- Result of `client.Get(ctx, key).Result()`. -/
inductive RedisReply
  | value (s : GoString)
  /-- The error `redis.Nil`: the key does not exist. -/
  | nil
  /-- Any other error. -/
  | error (e : GoError)
deriving DecidableEq, Repr

/-- The go-redis client `*redis.Client` talking to its server. -/
structure RedisConn where
  get : GoString → RedisReply
  set : GoString → Float64 → Int → Option GoError
  del : GoString → Option GoError

/-- The struct `cache.RedisClient`. -/
structure RedisClient where
  client : RedisConn
  config : RedisConfig

/-- Value of `ctx.Err()` after `httpClient.Do` returned an error. -/
inductive CtxErr
  | none | deadlineExceeded | canceled
deriving DecidableEq, Repr

/-- Result of `httpClient.Do(req)` and of reading the body of the response. -/
inductive HttpResult
  | failed (err : GoError) (ctxErr : CtxErr)
  | response (statusCode : Int) (status : GoString) (body : GoString) (readErr : Option GoError)
deriving DecidableEq, Repr

/-- The anonymous struct `apiResponse` of `FetchRateFromAPI`; the Go map is a list of entries
read with `List.lookup`. -/
structure ApiResponse where
  Result : GoString
  BaseCode : GoString
  ConversionRates : List (GoString × Float64)

/-- The Go standard library functions the code calls whose tables and parsers are not part of
the repository. -/
structure Lib where
  /-- The call `strings.Map(unicode.ToUpper, s)`, the path of `strings.ToUpper` for input that is
  not pure ASCII. -/
  mapUnicodeUpper : GoString → GoString
  /-- The call `strconv.ParseFloat(s, 64)`. -/
  parseFloat : GoString → Except GoError Float64
  /-- The call `json.Unmarshal(data, &apiResponse)`. -/
  jsonUnmarshal : GoString → Except GoError ApiResponse
  /-- The error of `http.NewRequestWithContext(ctx, "GET", url, nil)`, if any. -/
  newRequest : GoString → Option GoError
  /-- The verb `%.2f`. -/
  formatFloat2 : Float64 → GoString
  /-- The verb `%v` on a `time.Duration`. -/
  formatDuration : Int → GoString

/-- Go `strings.ToUpper`: bytewise on ASCII input, through the Unicode tables otherwise. -/
def ToUpper (lib : Lib) (s : GoString) : GoString :=
  if isASCII s then s.map upperByte else lib.mapUnicodeUpper s

/-- The struct `service.CurrencyService`; `redis` is a pointer and may be nil. -/
structure CurrencyService where
  config : Config
  redis : Option RedisClient
  httpClient : GoString → HttpResult

/-! ## pkg/cache/redis_client.go -/

/-- The key `fmt.Sprintf("rate:%s:%s", from, to)`. -/
def rateKey (cFrom cTo : GoString) : GoString := go "rate:" ++ cFrom ++ go ":" ++ cTo

/-- The method `(*RedisClient).GetExchangeRate`; a nil receiver panics at `r.client`. -/
def RedisClient.GetExchangeRate (r : Option RedisClient) (lib : Lib) (cFrom cTo : GoString) :
    Run (Float64 × Option GoError) :=
  let key := rateKey cFrom cTo
  match r with
  | none => ⟨[], .panic nilDereference⟩
  | some r =>
    match r.client.get key with
    | .nil =>
      ⟨[.redisGet key],
        .ret (Float64.zero, some (.errorf (go "exchange rate not found for " ++ cFrom ++ go " to " ++ cTo)))⟩
    | .error err =>
      ⟨[.redisGet key, .log .error (go "Redis GET error") [.str (go "key") key, .err err]],
        .ret (Float64.zero, some err)⟩
    | .value valueStr =>
      match lib.parseFloat valueStr with
      | .error err =>
        ⟨[.redisGet key, .log .error (go "Redis GET error") [.str (go "key") key, .err err]],
          .ret (Float64.zero, some (.wrapped (go "invalid exchange rate format: ") err))⟩
      | .ok value => ⟨[.redisGet key], .ret (value, none)⟩

/-- The method `(*RedisClient).SetExchangeRate`. -/
def RedisClient.SetExchangeRate (r : Option RedisClient) (cFrom cTo : GoString) (rate : Float64) :
    Run (Option GoError) :=
  let key := rateKey cFrom cTo
  match r with
  | none => ⟨[], .panic nilDereference⟩
  | some r =>
    match r.client.set key rate r.config.TTL with
    | some err =>
      ⟨[.redisSet key rate r.config.TTL,
        .log .error (go "Redis SET error") [.str (go "key") key, .err err]],
        .ret (some (.wrapped (go "caching error: ") err))⟩
    | none =>
      ⟨[.redisSet key rate r.config.TTL,
        .log .debug (go "Exchange rate saved to Redis")
          [.str (go "key") key, .f64 (go "rate") rate, .dur (go "ttl") r.config.TTL]],
        .ret none⟩

/-- The method `(*RedisClient).DeleteExchangeRate`. -/
def RedisClient.DeleteExchangeRate (r : Option RedisClient) (cFrom cTo : GoString) :
    Run (Option GoError) :=
  let key := rateKey cFrom cTo
  match r with
  | none => ⟨[], .panic nilDereference⟩
  | some r =>
    match r.client.del key with
    | some err =>
      ⟨[.redisDel key,
        .log .error (go "Failed to delete exchange rate") [.str (go "key") key, .err err]],
        .ret (some (.wrapped (go "failed to delete rate: ") err))⟩
    | none =>
      ⟨[.redisDel key, .log .debug (go "Exchange rate deleted from cache") [.str (go "key") key]],
        .ret none⟩

/-! ## internal/service/currency_service.go -/

/-- The URL `fmt.Sprintf("%s/v6/%s/latest/%s", CurrencyAPIURL, CurrencyKeyAPI, from)`. -/
def apiURL (cfg : Config) (cFrom : GoString) : GoString :=
  cfg.API.CurrencyAPIURL ++ go "/v6/" ++ cfg.API.CurrencyKeyAPI ++ go "/latest/" ++ cFrom

/-- The three log calls that open `FetchRateFromAPI`. -/
def fetchPrologue (cfg : Config) (cFrom cTo : GoString) : List Event :=
  [.log .error (go "🔍 DEBUG - Проверка конфигурации:")
      [.str (go "CurrencyAPIURL") cfg.API.CurrencyAPIURL,
       .str (go "CurrencyKeyAPI") (go "[" ++ cfg.API.CurrencyKeyAPI ++ go "]"),
       .int (go "KeyLength") (len cfg.API.CurrencyKeyAPI)],
   .log .error (go "🔍 DEBUG - Сформированный URL:") [.str (go "full_url") (apiURL cfg cFrom)],
   .log .debug (go "Fetching rate from ExchangeRate-API")
      [.str (go "from") cFrom, .str (go "to") cTo,
       .str (go "url") (Replace1 (apiURL cfg cFrom) cfg.API.CurrencyKeyAPI (go "***"))]]

/-- The method `(*CurrencyService).FetchRateFromAPI`. The keys of `available_currencies` are
logged in the order of the entries; Go leaves the order of a map iteration open. -/
def CurrencyService.FetchRateFromAPI (s : CurrencyService) (lib : Lib) (cFrom cTo : GoString) :
    Run (Float64 × Option GoError) :=
  let url := apiURL s.config cFrom
  let pro := fetchPrologue s.config cFrom cTo
  let ft : List Field := [.str (go "from") cFrom, .str (go "to") cTo]
  match lib.newRequest url with
  | some err =>
    ⟨pro ++ [.log .error (go "Failed to create HTTP request") (ft ++ [.err err])],
      .ret (Float64.zero, some (.wrapped (go "failed to create request: ") err))⟩
  | none =>
    match s.httpClient url with
    | .failed _ .deadlineExceeded =>
      ⟨pro ++ [.httpDo url,
          .log .error (go "API request timeout") (ft ++ [.dur (go "timeout") s.config.API.Timeout])],
        .ret (Float64.zero, some (.errorf
          (go "API request timeout after " ++ lib.formatDuration s.config.API.Timeout)))⟩
    | .failed _ .canceled =>
      ⟨pro ++ [.httpDo url, .log .warn (go "API request canceled by client") ft],
        .ret (Float64.zero, some (.errorf (go "API request canceled")))⟩
    | .failed err .none =>
      ⟨pro ++ [.httpDo url, .log .error (go "API request failed") (ft ++ [.err err])],
        .ret (Float64.zero, some (.wrapped (go "API request failed: ") err))⟩
    | .response statusCode status body readErr =>
      if statusCode ≠ 200 then
        ⟨pro ++ [.httpDo url,
            .log .error (go "API returned error status")
              (ft ++ [.int (go "status_code") statusCode, .str (go "status") status,
                      .str (go "response") body])],
          .ret (Float64.zero, some (.errorf
            (go "API returned status " ++ itoa statusCode ++ go ": " ++ status)))⟩
      else
        match readErr with
        | some err =>
          ⟨pro ++ [.httpDo url, .log .error (go "Failed to read API response") (ft ++ [.err err])],
            .ret (Float64.zero, some (.wrapped (go "failed to read response: ") err))⟩
        | none =>
          match lib.jsonUnmarshal body with
          | .error err =>
            ⟨pro ++ [.httpDo url,
                .log .error (go "Invalid JSON from ExchangeRate-API")
                  (ft ++ [.str (go "response") body, .err err])],
              .ret (Float64.zero, some (.wrapped (go "invalid JSON response: ") err))⟩
          | .ok apiResponse =>
            if apiResponse.Result ≠ go "success" then
              ⟨pro ++ [.httpDo url,
                  .log .error (go "ExchangeRate-API returned error")
                    (ft ++ [.str (go "result") apiResponse.Result, .str (go "response") body])],
                .ret (Float64.zero, some (.errorf
                  (go "ExchangeRate-API error: " ++ apiResponse.Result)))⟩
            else
              match apiResponse.ConversionRates.lookup cTo with
              | none =>
                ⟨pro ++ [.httpDo url,
                    .log .error (go "Currency not found in ExchangeRate-API response")
                      (ft ++ [.strs (go "available_currencies")
                        (apiResponse.ConversionRates.map Prod.fst)])],
                  .ret (Float64.zero, some (.errorf
                    (go "currency " ++ cTo ++ go " not found in API response")))⟩
              | some rate =>
                ⟨pro ++ [.httpDo url,
                    .log .debug (go "Rate successfully fetched from ExchangeRate-API")
                      (ft ++ [.f64 (go "rate") rate])],
                  .ret (rate, none)⟩

/-- The method `(*CurrencyService).GetExchangeRate`. -/
def CurrencyService.GetExchangeRate (s : CurrencyService) (lib : Lib) (cFrom cTo : GoString) :
    Run (Float64 × Option GoError) :=
  if cFrom = [] ∨ cTo = [] then
    ⟨[], .ret (Float64.zero, some (.errorf (go "currency codes cannot be empty")))⟩
  else if len cFrom ≠ 3 ∨ len cTo ≠ 3 then
    ⟨[], .ret (Float64.zero, some (.errorf (go "currency codes must be 3 characters")))⟩
  else if ToUpper lib cFrom = ToUpper lib cTo then
    ⟨[], .ret (Float64.one, none)⟩
  else
    let ft : List Field := [.str (go "from") cFrom, .str (go "to") cTo]
    let c := RedisClient.GetExchangeRate s.redis lib cFrom cTo
    match c.out with
    | .panic msg => ⟨c.trace, .panic msg⟩
    | .ret (rate, none) =>
      ⟨c.trace ++ [.log .debug (go "Cache hit") (ft ++ [.f64 (go "rate") rate])], .ret (rate, none)⟩
    | .ret (_, some err) =>
      let l : Event :=
        if !Contains err.Error (go "not found") then
          .log .warn (go "Redis error (will try API)") (ft ++ [.err err])
        else
          .log .debug (go "Cache miss") ft
      let a := s.FetchRateFromAPI lib cFrom cTo
      match a.out with
      | .panic msg => ⟨c.trace ++ [l] ++ a.trace, .panic msg⟩
      | .ret (_, some err) =>
        ⟨c.trace ++ [l] ++ a.trace,
          .ret (Float64.zero, some (.wrapped (go "failed to get rate from API: ") err))⟩
      | .ret (rateAPI, none) =>
        ⟨c.trace ++ [l] ++ a.trace ++ [.spawn (.cacheWrite cFrom cTo rateAPI)], .ret (rateAPI, none)⟩

/-- The body of the goroutine spawned by `GetExchangeRate`, run on its own. -/
def CurrencyService.cacheWrite (s : CurrencyService) (cFrom cTo : GoString) (rateAPI : Float64) :
    Run Unit :=
  let ft : List Field := [.str (go "from") cFrom, .str (go "to") cTo]
  let w := RedisClient.SetExchangeRate s.redis cFrom cTo rateAPI
  match w.out with
  | .panic msg => ⟨w.trace, .panic msg⟩
  | .ret err =>
    ⟨w.trace
      ++ (match err with
          | some e => [.log .warn (go "Failed to cache rate (non-critical)") (ft ++ [.err e])]
          | none => [])
      ++ [.log .debug (go "Rate cached in Redis")
            (ft ++ [.f64 (go "rate") rateAPI, .dur (go "ttl") s.config.Redis.TTL])],
      .ret ()⟩

/-- What a spawned goroutine does once it is scheduled, on the service that spawned it. -/
def Goroutine.run (s : CurrencyService) : Goroutine → Run Unit
  | .cacheWrite cFrom cTo rateAPI => s.cacheWrite cFrom cTo rateAPI

/-- The method `(*CurrencyService).Convert`; the results are `(result, rate, err)`. -/
def CurrencyService.Convert (s : CurrencyService) (lib : Lib) (cFrom cTo : GoString)
    (amount : Float64) : Run (Float64 × Float64 × Option GoError) :=
  if Float64.le amount Float64.zero then
    ⟨[], .ret (Float64.zero, Float64.zero,
      some (.errorf (go "amount must be positive, got: " ++ lib.formatFloat2 amount)))⟩
  else
    let g := s.GetExchangeRate lib cFrom cTo
    match g.out with
    | .panic msg => ⟨g.trace, .panic msg⟩
    | .ret (_, some err) => ⟨g.trace, .ret (Float64.zero, Float64.zero, some err)⟩
    | .ret (rate, none) =>
      let result := Float64.mul amount rate
      ⟨g.trace ++ [.log .info (go "Currency conversion completed")
          [.str (go "from") cFrom, .str (go "to") cTo, .f64 (go "amount") amount,
           .f64 (go "rate") rate, .f64 (go "result") result]],
        .ret (result, rate, none)⟩

/-! ## internal/app/app.go: construction -/

/-- The constructor `cache.NewRedisClient`: `ping` is the error of `client.Ping(ctx).Err()`. -/
def NewRedisClient (cfg : RedisConfig) (conn : RedisConn) (ping : Option GoError) :
    Option RedisClient × Option GoError :=
  match ping with
  | some err => (none, some (.wrapped (go "failed to connect to Redis: ") err))
  | none => (some ⟨conn, cfg⟩, none)

/-- The constructor `service.NewCurrencyService`. -/
def NewCurrencyService (cfg : Config) (redisClient : Option RedisClient)
    (httpClient : GoString → HttpResult) : CurrencyService :=
  ⟨cfg, redisClient, httpClient⟩

/-- The service that `app.New` builds: the error of `NewRedisClient` is logged and the client it
returned is passed on as it is. -/
def appNewService (cfg : Config) (conn : RedisConn) (ping : Option GoError)
    (httpClient : GoString → HttpResult) : CurrencyService :=
  NewCurrencyService cfg (NewRedisClient cfg.Redis conn ping).1 httpClient

/-! ## Vocabulary of the specification -/

/-- Two bytes are equal up to the case of an ASCII letter. -/
def caseRel (a b : Nat) : Bool :=
  a == b || (65 ≤ a && a ≤ 90 && b == a + 32) || (65 ≤ b && b ≤ 90 && a == b + 32)

/-- Bytewise equality of two strings up to the case of ASCII letters. -/
def foldEq : GoString → GoString → Bool
  | [], [] => true
  | a :: s, b :: t => caseRel a b && foldEq s t
  | _, _ => false

/-- Two ASCII codes are equal ignoring letter case. -/
def EqualFoldASCII (a b : GoString) : Bool := isASCII a && isASCII b && foldEq a b

/-- The error is one of the two validation errors of `GetExchangeRate` on currency codes. -/
def IsInvalidCurrencyCode (e : GoError) : Prop :=
  e.Error = go "currency codes cannot be empty" ∨ e.Error = go "currency codes must be 3 characters"

/-- The error is the validation error of `Convert` on the amount. -/
def IsInvalidAmount (lib : Lib) (amount : Float64) (e : GoError) : Prop :=
  e = .errorf (go "amount must be positive, got: " ++ lib.formatFloat2 amount)

/-- The text `msg` carries a snippet of `body`: some initial part of `body` that is not empty
occurs in it. -/
def CarriesSnippetOf (msg body : GoString) : Bool :=
  (List.range body.length).any (fun n => Contains msg (body.take (n + 1)))

/-- The same service against a Redis server that answers `SET` as `set` does. -/
def CurrencyService.withCacheSet (s : CurrencyService)
    (set : GoString → Float64 → Int → Option GoError) : CurrencyService :=
  { s with redis := s.redis.map (fun r => { r with client := { r.client with set := set } }) }

/-! ## Fixtures: concrete collaborators for the scenarios -/

namespace Fixture

def config : Config :=
  ⟨⟨go "secret-key", go "https://v6.exchangerate-api.com", 10000000000⟩,
   ⟨go "localhost:6379", [], 0, 3600000000000⟩⟩

/-- A success envelope of the upstream API for base `USD` with the table `EUR: 0.9`. -/
def body : GoString :=
  go "\x7b\"result\":\"success\",\"base_code\":\"USD\",\"conversion_rates\":\x7b\"EUR\":0.9\x7d\x7d"

/-- A stand-in for the standard library that knows the texts of the scenarios: the decimal
`0.85`, the envelope `body`, and the amount `-1`. -/
def lib : Lib where
  mapUnicodeUpper := fun s => s
  parseFloat := fun s =>
    if s = go "0.85" then .ok Float64.c0_85
    else .error (.errorf (go "strconv.ParseFloat: invalid syntax"))
  jsonUnmarshal := fun data =>
    if data = body then .ok ⟨go "success", go "USD", [(go "EUR", Float64.c0_9)]⟩
    else .error (.errorf (go "invalid character"))
  newRequest := fun _ => none
  formatFloat2 := fun _ => go "-1.00"
  formatDuration := fun _ => go "10s"

/-- A Redis server holding `0.85` for the pair `(USD, EUR)` and nothing else. -/
def cachedConn : RedisConn :=
  ⟨fun k => if k = go "rate:USD:EUR" then .value (go "0.85") else .nil, fun _ _ _ => none,
   fun _ => none⟩

/-- A Redis server holding nothing. -/
def emptyConn : RedisConn := ⟨fun _ => .nil, fun _ _ _ => none, fun _ => none⟩

/-- A Redis server that cannot be reached. -/
def brokenConn : RedisConn :=
  ⟨fun _ => .error (.errorf (go "dial tcp 127.0.0.1:6379: connect: connection refused")),
   fun _ _ _ => some (.errorf (go "dial tcp 127.0.0.1:6379: connect: connection refused")),
   fun _ => some (.errorf (go "dial tcp 127.0.0.1:6379: connect: connection refused"))⟩

/-- An upstream that answers the request for base `USD` with `body`. -/
def healthyOrigin : GoString → HttpResult := fun url =>
  if url = go "https://v6.exchangerate-api.com/v6/secret-key/latest/USD" then
    .response 200 (go "200 OK") body none
  else .response 404 (go "404 Not Found") (go "malformed request") none

/-- An upstream that answers every request with status 404. -/
def notFoundOrigin : GoString → HttpResult := fun _ =>
  .response 404 (go "404 Not Found") (go "malformed request") none

/-- An upstream that cannot be reached. -/
def downOrigin : GoString → HttpResult := fun _ =>
  .failed (.errorf (go "dial tcp: lookup v6.exchangerate-api.com: no such host")) .none

/-- The constant `-1.0`. -/
def minusOne : Float64 := ⟨0xBFF0000000000000⟩

/-- Redis reachable and holding `0.85` for `(USD, EUR)`; upstream unreachable. -/
def cached : CurrencyService := appNewService config cachedConn none downOrigin

/-- Redis reachable and empty; upstream healthy. -/
def fresh : CurrencyService := appNewService config emptyConn none healthyOrigin

/-- Redis reachable at startup and failing afterwards; upstream healthy. -/
def cacheDown : CurrencyService := appNewService config brokenConn none healthyOrigin

/-- Redis unreachable at startup; upstream healthy. -/
def noRedis : CurrencyService :=
  appNewService config brokenConn
    (some (.errorf (go "dial tcp 127.0.0.1:6379: connect: connection refused"))) healthyOrigin

/-- Redis reachable and empty; upstream unreachable. -/
def originDown : CurrencyService := appNewService config emptyConn none downOrigin

/-- Redis reachable and empty; upstream answers 404. -/
def origin404 : CurrencyService := appNewService config emptyConn none notFoundOrigin

end Fixture

/-! ## internal/model/currency.go and internal/handler/currency.go -/

/-- The constant `0.01`, the parameter of the tag `min=0.01`. -/
def Float64.c0_01 : Float64 := ⟨0x3F847AE147AE147B⟩

/-- Size in bytes of the rune that starts a non-empty string, as `utf8.RuneCountInString`
steps: 1 for ASCII and for every byte that does not start a well-formed sequence. -/
def runeSize : GoString → Nat
  | [] => 0
  | c :: t =>
    let cont : Nat → Bool := fun b => 0x80 ≤ b && b ≤ 0xBF
    let second (lo hi : Nat) : Bool :=
      match t with
      | b :: _ => lo ≤ b && b ≤ hi
      | [] => false
    let third : Bool :=
      match t with
      | _ :: b :: _ => cont b
      | _ => false
    let fourth : Bool :=
      match t with
      | _ :: _ :: b :: _ => cont b
      | _ => false
    if c < 0x80 then 1
    else if c < 0xC2 then 1
    else if c ≤ 0xDF then (if second 0x80 0xBF then 2 else 1)
    else if c = 0xE0 then (if second 0xA0 0xBF && third then 3 else 1)
    else if c = 0xED then (if second 0x80 0x9F && third then 3 else 1)
    else if c ≤ 0xEF then (if second 0x80 0xBF && third then 3 else 1)
    else if c = 0xF0 then (if second 0x90 0xBF && third && fourth then 4 else 1)
    else if c ≤ 0xF3 then (if second 0x80 0xBF && third && fourth then 4 else 1)
    else if c = 0xF4 then (if second 0x80 0x8F && third && fourth then 4 else 1)
    else 1

/-- The loop of `utf8.RuneCountInString`; `skip` bytes of the current rune are still to pass. -/
def runeCountFrom : Nat → GoString → Nat
  | _, [] => 0
  | 0, c :: t => runeCountFrom (runeSize (c :: t) - 1) t + 1
  | skip + 1, _ :: t => runeCountFrom skip t

/-- Go `utf8.RuneCountInString`: the length in characters that the validator tag `len` uses. -/
def RuneCountInString (s : GoString) : Nat := runeCountFrom 0 s

/-- The struct `model.ConvertRequest`. -/
structure ConvertRequest where
  From : GoString
  To : GoString
  Amount : Float64
deriving DecidableEq, Repr

/-- The struct `model.ConvertResponse`. -/
structure ConvertResponse where
  From : GoString
  To : GoString
  Amount : Float64
  Rate : Float64
  Result : Float64
deriving DecidableEq, Repr

/-- The struct `model.ErrorResponse`. -/
structure ErrorResponse where
  Error : GoString
  Message : GoString
  Details : GoString
deriving DecidableEq, Repr

/-- The query of a request `GET /convert`: the first value of each of the keys `from`, `to` and
`amount` in `url.Values`, `none` when the key is absent. -/
structure Query where
  qFrom : Option GoString
  qTo : Option GoString
  amount : Option GoString
deriving DecidableEq, Repr

/-- The text of one `validator.FieldError` of `ConvertRequest`. -/
def fieldError (field tag : GoString) : GoString :=
  go "Key: 'ConvertRequest." ++ field ++ go "' Error:Field validation for '" ++ field ++
    go "' failed on the '" ++ tag ++ go "' tag"

/-- The tags `binding:"required,len=3"` on a string field: the first tag that fails. -/
def validateCode (field v : GoString) : Option GoString :=
  if v = [] then some (fieldError field (go "required"))
  else if RuneCountInString v ≠ 3 then some (fieldError field (go "len"))
  else none

/-- The tags `binding:"required,min=0.01"` on the field `Amount`: the first tag that fails.
`required` rejects the zero value; for the amount `-0`, which `min` rejects as well, the tag that
is reported depends on the version of the validator. -/
def validateAmount (a : Float64) : Option GoString :=
  if a.isZero then some (fieldError (go "Amount") (go "required"))
  else if !Float64.le Float64.c0_01 a then some (fieldError (go "Amount") (go "min"))
  else none

/-- The failed fields of `validate.Struct` on a `ConvertRequest`, in the order of the fields. -/
def validateStruct (req : ConvertRequest) : List GoString :=
  (validateCode (go "From") req.From).toList ++ (validateCode (go "To") req.To).toList ++
    (validateAmount req.Amount).toList

/-- The method `ValidationErrors.Error`: one line for each failed field. -/
def joinLines : List GoString → GoString
  | [] => []
  | [m] => m
  | m :: rest => m ++ go "\n" ++ joinLines rest

/-- The function `setFloatField` of the gin form mapping on the value of `amount`: an absent key
leaves the field at 0, an empty value is read as `0.0`. -/
def setFloatField (lib : Lib) : Option GoString → Except GoError Float64
  | none => .ok Float64.zero
  | some v => lib.parseFloat (if v = [] then go "0.0" else v)

/-- The call `c.ShouldBindQuery(&req)` for `model.ConvertRequest`: the gin form mapping by the
tags `form`, then the validator on the tags `binding`. -/
def ShouldBindQuery (lib : Lib) (q : Query) : Except GoError ConvertRequest :=
  match setFloatField lib q.amount with
  | .error err => .error err
  | .ok amount =>
    match validateStruct ⟨q.qFrom.getD [], q.qTo.getD [], amount⟩ with
    | [] => .ok ⟨q.qFrom.getD [], q.qTo.getD [], amount⟩
    | m :: rest => .error (.errorf (joinLines (m :: rest)))

/-- The method `Convert` of `service.CurrencyServiceInterface`, the only one the handler calls. -/
abbrev CurrencyServiceInterface :=
  GoString → GoString → Float64 → Run (Float64 × Float64 × Option GoError)

/-- The implementation `*CurrencyService` of the interface. -/
def CurrencyService.asInterface (s : CurrencyService) (lib : Lib) : CurrencyServiceInterface :=
  fun cFrom cTo amount => s.Convert lib cFrom cTo amount

/-- The value is neither NaN nor an infinity: `encoding/json` encodes no other float64. -/
def Float64.isFinite (x : Float64) : Bool := x.expo != 2047

/-- The body of a response: the object that `c.JSON` encoded, or nothing. -/
inductive JSONBody
  | error (e : ErrorResponse)
  | convert (r : ConvertResponse)
  /-- No body was written. -/
  | empty
deriving DecidableEq, Repr

/-- The call `json.Marshal(obj)` succeeds: strings always encode, a float64 only when it is
finite. -/
def JSONBody.encodable : JSONBody → Bool
  | .error _ => true
  | .convert r => r.Amount.isFinite && r.Rate.isFinite && r.Result.isFinite
  | .empty => true

/-- The response written by `c.JSON(status, body)`. -/
structure HTTPResponse where
  status : Nat
  body : JSONBody
deriving DecidableEq, Repr

/-- The call `c.JSON(status, obj)`: the status is set, then the object is encoded and written;
when `json.Marshal` rejects the object the error is recorded on the context and no body is
written. -/
def cJSON (status : Nat) (obj : JSONBody) : HTTPResponse :=
  ⟨status, if obj.encodable then obj else .empty⟩

/-- A finished call of the handler: the calls of `currencyService.Convert` it made with their
arguments, the events of those calls, and the response (or the panic it lets through). -/
structure HandlerRun where
  calls : List (GoString × GoString × Float64)
  trace : List Event
  out : Outcome HTTPResponse
deriving DecidableEq, Repr

/-- The method `(*CurrencyHandler).Convert`. -/
def CurrencyHandler.Convert (lib : Lib) (currencyService : CurrencyServiceInterface)
    (q : Query) : HandlerRun :=
  match ShouldBindQuery lib q with
  | .error err =>
    ⟨[], [], .ret (cJSON 400 (.error ⟨go "Invalid request", [], err.Error⟩))⟩
  | .ok req =>
    let r := currencyService req.From req.To req.Amount
    match r.out with
    | .panic msg => ⟨[(req.From, req.To, req.Amount)], r.trace, .panic msg⟩
    | .ret (_, _, some err) =>
      ⟨[(req.From, req.To, req.Amount)], r.trace,
        .ret (cJSON 500 (.error ⟨go "Conversion failed", [], err.Error⟩))⟩
    | .ret (result, rate, none) =>
      ⟨[(req.From, req.To, req.Amount)], r.trace,
        .ret (cJSON 200 (.convert ⟨req.From, req.To, req.Amount, rate, result⟩))⟩

/-! ## The Redis server -/

/-- The Redis server as its clients see it: the text stored under each key. The commands `SET`
and `DEL` change the key they name and no other; expiry is left out. -/
abbrev Store := GoString → Option GoString

/-- The store after one event: `fmt` is the text that go-redis sends for a float64 value. -/
def Store.step (fmt : Float64 → GoString) (st : Store) : Event → Store
  | .redisSet key value _ => fun k => if k = key then some (fmt value) else st k
  | .redisDel key => fun k => if k = key then none else st k
  | _ => st

/-- The store after the events of a run. -/
def Store.after (fmt : Float64 → GoString) (st : Store) (trace : List Event) : Store :=
  trace.foldl (Store.step fmt) st

/-- A client connected to a reachable server with the given content. -/
def Store.conn (st : Store) : RedisConn :=
  ⟨fun k => match st k with
    | some v => .value v
    | none => .nil,
   fun _ _ _ => none, fun _ => none⟩

/-! ## Vocabulary of the specification, continued -/

/-- The value is a positive finite number. -/
def Float64.isPositiveFinite (x : Float64) : Bool := !x.sign && x.expo != 2047 && !x.isZero

/-- The log field carries `key` as a part of one of its texts. -/
def Field.carries (key : GoString) : Field → Bool
  | .str _ val => Contains val key
  | .err val => Contains val.Error key
  | .strs _ val => val.any (fun v => Contains v key)
  | _ => false

/-- The event is a log entry with a field that carries `key`. -/
def Event.leaks (key : GoString) : Event → Bool
  | .log _ msg fields => Contains msg key || fields.any (Field.carries key)
  | _ => false

/-- The event is a command sent to the Redis server. -/
def Event.isRedisCommand : Event → Bool
  | .redisGet _ => true
  | .redisSet _ _ _ => true
  | .redisDel _ => true
  | _ => false

/-- The query is rejected by the request binding for one of the reasons of the specification:
`from` or `to` is missing or not exactly 3 characters long, or `amount` is missing, does not
parse, or is below 0.01. -/
def Query.Invalid (lib : Lib) (q : Query) : Prop :=
  q.qFrom = none ∨ (∃ v, q.qFrom = some v ∧ RuneCountInString v ≠ 3) ∨
  q.qTo = none ∨ (∃ v, q.qTo = some v ∧ RuneCountInString v ≠ 3) ∨
  q.amount = none ∨
  (∃ e, setFloatField lib q.amount = .error e) ∨
  (∃ x, setFloatField lib q.amount = .ok x ∧ Float64.lt x Float64.c0_01 = true)

/-- The errors of `strconv.ParseFloat` have a message: it starts with `strconv.ParseFloat: `. -/
def Lib.parseErrorsHaveText (lib : Lib) : Prop :=
  ∀ s e, lib.parseFloat s = .error e → e.Error ≠ []

namespace Fixture

/-- An error envelope of the upstream API that still carries a rate table. -/
def errorBody : GoString :=
  go "\x7b\"result\":\"error\",\"base_code\":\"USD\",\"conversion_rates\":\x7b\"EUR\":0.9\x7d\x7d"

/-- The constant `-10.0`. -/
def minusTen : Float64 := ⟨0xC024000000000000⟩

/-- The constant `0.25`. -/
def quarter : Float64 := ⟨0x3FD0000000000000⟩

/-- The smallest positive float64. -/
def tiny : Float64 := ⟨1⟩

/-- A stand-in for the standard library that also knows the amounts of the requests and the
envelope `errorBody`. -/
def webLib : Lib where
  mapUnicodeUpper := fun s => s
  parseFloat := fun s =>
    if s = go "0.85" then .ok Float64.c0_85
    else if s = go "10" then .ok Float64.c10
    else if s = go "100" then .ok Float64.c100
    else if s = go "0.01" then .ok Float64.c0_01
    else if s = go "0.0" then .ok Float64.zero
    else if s = go "-1" then .ok minusOne
    else .error (.errorf (go "strconv.ParseFloat: parsing: invalid syntax"))
  jsonUnmarshal := fun data =>
    if data = body then .ok ⟨go "success", go "USD", [(go "EUR", Float64.c0_9)]⟩
    else if data = errorBody then .ok ⟨go "error", go "USD", [(go "EUR", Float64.c0_9)]⟩
    else .error (.errorf (go "invalid character"))
  newRequest := fun _ => none
  formatFloat2 := fun _ => go "-1.00"
  formatDuration := fun _ => go "10s"

/-- An upstream that answers every request with `errorBody`. -/
def errorOrigin : GoString → HttpResult := fun _ => .response 200 (go "200 OK") errorBody none

/-- An upstream that answers every request with `body`, whatever the case of the base code. -/
def anyCaseOrigin : GoString → HttpResult := fun _ => .response 200 (go "200 OK") body none

/-- Redis reachable and empty; upstream answers with the error envelope. -/
def originError : CurrencyService := appNewService config emptyConn none errorOrigin

/-- Redis reachable and holding `0.85` for `(USD, EUR)`; upstream healthy for every request. -/
def cachedHealthy : CurrencyService := appNewService config cachedConn none anyCaseOrigin

/-- A Redis server holding the text `-1` for the pair `(USD, EUR)`. -/
def negativeConn : RedisConn :=
  ⟨fun k => if k = go "rate:USD:EUR" then .value (go "-1") else .nil, fun _ _ _ => none,
   fun _ => none⟩

/-- Redis reachable and holding `-1` for `(USD, EUR)`; upstream unreachable. -/
def cachedNegative : CurrencyService := appNewService config negativeConn none downOrigin

/-- A store holding `0.85` for `(EUR, USD)`. -/
def store : Store := fun k => if k = go "rate:EUR:USD" then some (go "0.85") else none

/-- The query `from=USD&to=EUR&amount=100`. -/
def goodQuery : Query := ⟨some (go "USD"), some (go "EUR"), some (go "100")⟩

/-- The query `from=US&to=EUR&amount=100`. -/
def shortCodeQuery : Query := ⟨some (go "US"), some (go "EUR"), some (go "100")⟩

end Fixture

/-! ## Lemmas on strings and floats -/

theorem upperByte_caseRel (a b : Nat) (h : caseRel a b = true) : upperByte a = upperByte b := by
  simp only [caseRel, Bool.or_eq_true, Bool.and_eq_true, beq_iff_eq, decide_eq_true_eq] at h
  unfold upperByte
  split_ifs <;> omega

theorem map_upperByte_foldEq : ∀ (a b : GoString), foldEq a b = true →
    a.map upperByte = b.map upperByte
  | [], [], _ => rfl
  | [], _ :: _, h => by simp [foldEq] at h
  | _ :: _, [], h => by simp [foldEq] at h
  | x :: s, y :: t, h => by
    simp only [foldEq, Bool.and_eq_true] at h
    simp only [List.map_cons, upperByte_caseRel x y h.1, map_upperByte_foldEq s t h.2]

theorem ToUpper_eq_of_EqualFoldASCII (lib : Lib) (a b : GoString)
    (h : EqualFoldASCII a b = true) : ToUpper lib a = ToUpper lib b := by
  simp only [EqualFoldASCII, Bool.and_eq_true] at h
  simp only [ToUpper, h.1.1, h.1.2, if_true]
  exact map_upperByte_foldEq a b h.2

theorem head?_append_of_head? {a x : GoString} {c : Nat} (h : a.head? = some c) :
    (a ++ x).head? = some c := by
  cases a with
  | nil => simp at h
  | cons b t => simpa using h

theorem Contains_append_right (a b c : GoString) : Contains (a ++ (b ++ c)) b = true := by
  induction a with
  | nil =>
    cases b with
    | nil => cases c <;> simp [Contains, Index]
    | cons x t => simp [Contains, Index]
  | cons x a ih =>
    simp only [Contains, List.cons_append, Index] at ih ⊢
    split_ifs
    · rfl
    · simpa using ih

theorem len_three_ne_nil {c : GoString} (h : len c = 3) : c ≠ [] := by
  intro h0
  simp [h0, len] at h

theorem wrapped_not_invalid_code (e : GoError) :
    ¬ IsInvalidCurrencyCode (.wrapped (go "failed to get rate from API: ") e) := by
  have h1 : (go "failed to get rate from API: " ++ e.Error).head? = some 102 :=
    head?_append_of_head? (by decide)
  rintro (h | h) <;>
  · simp only [GoError.Error] at h
    rw [h] at h1
    revert h1
    decide

/-- The body of `GetExchangeRate` behind its three guards. -/
theorem getExchangeRate_resolve (s : CurrencyService) (lib : Lib) (cFrom cTo : GoString)
    (hf : len cFrom = 3) (ht : len cTo = 3) (hne : ToUpper lib cFrom ≠ ToUpper lib cTo) :
    s.GetExchangeRate lib cFrom cTo =
      match (RedisClient.GetExchangeRate s.redis lib cFrom cTo).out with
      | .panic msg => ⟨(RedisClient.GetExchangeRate s.redis lib cFrom cTo).trace, .panic msg⟩
      | .ret (rate, none) =>
        ⟨(RedisClient.GetExchangeRate s.redis lib cFrom cTo).trace ++
          [.log .debug (go "Cache hit")
            [.str (go "from") cFrom, .str (go "to") cTo, .f64 (go "rate") rate]],
          .ret (rate, none)⟩
      | .ret (_, some err) =>
        match (s.FetchRateFromAPI lib cFrom cTo).out with
        | .panic msg =>
          ⟨(RedisClient.GetExchangeRate s.redis lib cFrom cTo).trace ++
            [if !Contains err.Error (go "not found") then
              Event.log .warn (go "Redis error (will try API)")
                [.str (go "from") cFrom, .str (go "to") cTo, .err err]
             else .log .debug (go "Cache miss") [.str (go "from") cFrom, .str (go "to") cTo]] ++
            (s.FetchRateFromAPI lib cFrom cTo).trace, .panic msg⟩
        | .ret (_, some e) =>
          ⟨(RedisClient.GetExchangeRate s.redis lib cFrom cTo).trace ++
            [if !Contains err.Error (go "not found") then
              Event.log .warn (go "Redis error (will try API)")
                [.str (go "from") cFrom, .str (go "to") cTo, .err err]
             else .log .debug (go "Cache miss") [.str (go "from") cFrom, .str (go "to") cTo]] ++
            (s.FetchRateFromAPI lib cFrom cTo).trace,
            .ret (Float64.zero, some (.wrapped (go "failed to get rate from API: ") e))⟩
        | .ret (rateAPI, none) =>
          ⟨(RedisClient.GetExchangeRate s.redis lib cFrom cTo).trace ++
            [if !Contains err.Error (go "not found") then
              Event.log .warn (go "Redis error (will try API)")
                [.str (go "from") cFrom, .str (go "to") cTo, .err err]
             else .log .debug (go "Cache miss") [.str (go "from") cFrom, .str (go "to") cTo]] ++
            (s.FetchRateFromAPI lib cFrom cTo).trace ++ [.spawn (.cacheWrite cFrom cTo rateAPI)],
            .ret (rateAPI, none)⟩ := by
  have hf0 := len_three_ne_nil hf
  have ht0 := len_three_ne_nil ht
  simp only [CurrencyService.GetExchangeRate, hf, ht, hf0, ht0, hne, or_self, ne_eq,
    not_true_eq_false, if_false, List.cons_append, List.nil_append]

theorem cacheLookup_trace (r : Option RedisClient) (lib : Lib) (cFrom cTo : GoString) :
    (RedisClient.GetExchangeRate r lib cFrom cTo).trace.filter Event.isOriginFetch = [] ∧
    (RedisClient.GetExchangeRate r lib cFrom cTo).trace.filter Event.isCacheWrite = [] := by
  unfold RedisClient.GetExchangeRate
  cases r with
  | none => simp
  | some r =>
    simp only []
    split
    · simp [List.filter, Event.isOriginFetch, Event.isCacheWrite]
    · simp [List.filter, Event.isOriginFetch, Event.isCacheWrite]
    · split <;> simp [List.filter, Event.isOriginFetch, Event.isCacheWrite]

theorem cacheLookup_trace_of_ret (r : Option RedisClient) (lib : Lib) (cFrom cTo : GoString)
    (x : Float64 × Option GoError)
    (h : (RedisClient.GetExchangeRate r lib cFrom cTo).out = .ret x) :
    (RedisClient.GetExchangeRate r lib cFrom cTo).trace.filter Event.isCacheLookup
      = [.redisGet (rateKey cFrom cTo)] := by
  unfold RedisClient.GetExchangeRate at h ⊢
  cases r with
  | none => simp at h
  | some r =>
    simp only []
    split
    · simp [List.filter, Event.isCacheLookup]
    · simp [List.filter, Event.isCacheLookup]
    · split <;> simp [List.filter, Event.isCacheLookup]

theorem fetch_trace (s : CurrencyService) (lib : Lib) (cFrom cTo : GoString) :
    (s.FetchRateFromAPI lib cFrom cTo).trace.filter Event.isCacheLookup = [] ∧
    (s.FetchRateFromAPI lib cFrom cTo).trace.filter Event.isCacheWrite = [] := by
  unfold CurrencyService.FetchRateFromAPI
  simp only []
  split
  · simp [List.filter, Event.isCacheLookup, Event.isCacheWrite, fetchPrologue]
  · split
    · simp [List.filter, Event.isCacheLookup, Event.isCacheWrite, fetchPrologue]
    · simp [List.filter, Event.isCacheLookup, Event.isCacheWrite, fetchPrologue]
    · simp [List.filter, Event.isCacheLookup, Event.isCacheWrite, fetchPrologue]
    · split
      · simp [List.filter, Event.isCacheLookup, Event.isCacheWrite, fetchPrologue]
      · split
        · simp [List.filter, Event.isCacheLookup, Event.isCacheWrite, fetchPrologue]
        · split
          · simp [List.filter, Event.isCacheLookup, Event.isCacheWrite, fetchPrologue]
          · split
            · simp [List.filter, Event.isCacheLookup, Event.isCacheWrite, fetchPrologue]
            · split <;> simp [List.filter, Event.isCacheLookup, Event.isCacheWrite, fetchPrologue]

theorem missLog_filter (c : Bool) (m1 m2 : GoString) (f1 f2 : List Field) (p : Event → Bool)
    (hp : ∀ l m f, p (.log l m f) = false) :
    List.filter p [if c then Event.log .warn m1 f1 else .log .debug m2 f2] = [] := by
  cases c <;> simp [List.filter, hp]

theorem withCacheSet_lookup (s : CurrencyService)
    (set : GoString → Float64 → Int → Option GoError) (lib : Lib) (cFrom cTo : GoString) :
    RedisClient.GetExchangeRate (s.withCacheSet set).redis lib cFrom cTo
      = RedisClient.GetExchangeRate s.redis lib cFrom cTo := by
  unfold CurrencyService.withCacheSet RedisClient.GetExchangeRate
  cases s.redis <;> rfl

theorem getExchangeRate_equal (s : CurrencyService) (lib : Lib) (cFrom cTo : GoString)
    (hf : len cFrom = 3) (ht : len cTo = 3) (hup : ToUpper lib cFrom = ToUpper lib cTo) :
    s.GetExchangeRate lib cFrom cTo = ⟨[], .ret (Float64.one, none)⟩ := by
  have hf0 := len_three_ne_nil hf
  have ht0 := len_three_ne_nil ht
  simp [CurrencyService.GetExchangeRate, hf, ht, hf0, ht0, hup]

/-- The float64 constants are the values Go gives to the decimal literals they stand for. -/
theorem constants_nearest :
    Float64.nearestTo Float64.one 1 1 = true ∧
    Float64.nearestTo Float64.c0_85 85 100 = true ∧
    Float64.nearestTo Float64.c0_9 9 10 = true ∧
    Float64.nearestTo Float64.c9 9 1 = true ∧
    Float64.nearestTo Float64.c10 10 1 = true ∧
    Float64.nearestTo Float64.c85 85 1 = true ∧
    Float64.nearestTo Float64.c100 100 1 = true := by
  decide

theorem lt_zero_not_le (a : Float64) (h : Float64.lt Float64.zero a = true) :
    Float64.le a Float64.zero = false := by
  have hk : Float64.zero.key = 0 := by decide
  simp only [Float64.lt, Float64.le, hk, Bool.and_eq_true, decide_eq_true_eq] at h ⊢
  have h2 := h.2
  simp only [Bool.and_eq_false_iff, decide_eq_false_iff_not]
  right
  omega

theorem convert_of_rate (s : CurrencyService) (lib : Lib) (cFrom cTo : GoString)
    (amount rate : Float64) (hpos : Float64.le amount Float64.zero = false)
    (hrate : (s.GetExchangeRate lib cFrom cTo).out = .ret (rate, none)) :
    s.Convert lib cFrom cTo amount =
      ⟨(s.GetExchangeRate lib cFrom cTo).trace ++
        [.log .info (go "Currency conversion completed")
          [.str (go "from") cFrom, .str (go "to") cTo, .f64 (go "amount") amount,
           .f64 (go "rate") rate, .f64 (go "result") (Float64.mul amount rate)]],
        .ret (Float64.mul amount rate, rate, none)⟩ := by
  simp only [CurrencyService.Convert, hpos, hrate]
  rfl

theorem ToUpper_USD_ne_EUR (lib : Lib) : ToUpper lib (go "USD") ≠ ToUpper lib (go "EUR") := by
  have h1 : isASCII (go "USD") = true := by decide
  have h2 : isASCII (go "EUR") = true := by decide
  simp only [ToUpper, h1, h2, if_true]
  decide

theorem cacheLookup_some_of_ret (r : Option RedisClient) (lib : Lib) (f t : GoString)
    (x : Float64 × Option GoError)
    (h : (RedisClient.GetExchangeRate r lib f t).out = .ret x) : ∃ rc, r = some rc := by
  cases r with
  | none => simp [RedisClient.GetExchangeRate] at h
  | some rc => exact ⟨rc, rfl⟩

theorem cacheWrite_commands (s : CurrencyService) (rc : RedisClient) (f t : GoString)
    (r : Float64) (hs : s.redis = some rc) :
    (s.cacheWrite f t r).trace.filter Event.isRedisCommand
      = [.redisSet (go "rate:" ++ f ++ go ":" ++ t) r rc.config.TTL] ∧
    (s.cacheWrite f t r).out = .ret () := by
  show (s.cacheWrite f t r).trace.filter Event.isRedisCommand
      = [.redisSet (rateKey f t) r rc.config.TTL] ∧ (s.cacheWrite f t r).out = .ret ()
  cases h : rc.client.set (rateKey f t) r rc.config.TTL with
  | none =>
    simp [CurrencyService.cacheWrite, RedisClient.SetExchangeRate, hs, h, List.filter,
      Event.isRedisCommand]
  | some e =>
    simp [CurrencyService.cacheWrite, RedisClient.SetExchangeRate, hs, h, List.filter,
      Event.isRedisCommand]

theorem cJSON_error (status : Nat) (e : ErrorResponse) :
    cJSON status (.error e) = ⟨status, .error e⟩ := rfl

/-! ## Claims -/

/-- C1, as stated, fails: `€UR` is a currency code of exactly 3 characters (it is 5 bytes
long), and `GetExchangeRate("€UR", "€UR")` returns rate 0 and the invalid currency code error
instead of `(1.0, nil)`. -/
theorem getExchangeRate_same_currency_three_runes :
    RuneCountInString (go "€UR") = 3 ∧ len (go "€UR") = 5 ∧
    Fixture.fresh.GetExchangeRate Fixture.webLib (go "€UR") (go "€UR")
      = ⟨[], .ret (Float64.zero, some (.errorf (go "currency codes must be 3 characters")))⟩ := by
  decide

/-- C1, amended: for all codes `from`, `to` of exactly 3 bytes (the unit of Go `len`; 3
characters when the code is ASCII) that are equal ignoring letter case (equal after
`strings.ToUpper`, or ASCII and bytewise equal up to letter case), `GetExchangeRate(from, to)`
returns `(1.0, nil)` and performs no event at all: no cache lookup, no origin fetch, no cache
write. In particular this holds for `(X, X)`. -/
theorem getExchangeRate_same_currency (s : CurrencyService) (lib : Lib) (cFrom cTo : GoString)
    (hf : len cFrom = 3) (ht : len cTo = 3)
    (heq : ToUpper lib cFrom = ToUpper lib cTo ∨ EqualFoldASCII cFrom cTo = true) :
    s.GetExchangeRate lib cFrom cTo = ⟨[], .ret (Float64.one, none)⟩ ∧
    s.GetExchangeRate lib cFrom cFrom = ⟨[], .ret (Float64.one, none)⟩ := by
  have hup : ToUpper lib cFrom = ToUpper lib cTo :=
    heq.elim id (ToUpper_eq_of_EqualFoldASCII lib cFrom cTo)
  exact ⟨getExchangeRate_equal s lib cFrom cTo hf ht hup,
    getExchangeRate_equal s lib cFrom cFrom hf hf rfl⟩

theorem getExchangeRate_same_currency_witness :
    (Fixture.fresh.GetExchangeRate Fixture.lib (go "usd") (go "USD")
        = ⟨[], .ret (Float64.one, none)⟩) ∧
    (Fixture.fresh.GetExchangeRate Fixture.lib (go "usd") (go "usd")
        = ⟨[], .ret (Float64.one, none)⟩) :=
  getExchangeRate_same_currency Fixture.fresh Fixture.lib (go "usd") (go "USD")
    (by decide) (by decide) (Or.inr (by decide))

/-- C2, as stated, fails in both directions: `€UR` and `USD` are codes of exactly 3 characters,
yet `GetExchangeRate("€UR", "USD")` fails with the invalid currency code error (`€UR` is 5 bytes
long); and `€` is a code of 1 character, yet `GetExchangeRate("€", "USD")` passes the validation
(`€` is 3 bytes long), reads the cache, asks the origin and fails with the error of the origin,
which is no invalid currency code error. -/
theorem getExchangeRate_invalid_code_by_bytes :
    RuneCountInString (go "€UR") = 3 ∧ RuneCountInString (go "USD") = 3 ∧
    Fixture.fresh.GetExchangeRate Fixture.webLib (go "€UR") (go "USD")
      = ⟨[], .ret (Float64.zero, some (.errorf (go "currency codes must be 3 characters")))⟩ ∧
    IsInvalidCurrencyCode (.errorf (go "currency codes must be 3 characters")) ∧
    RuneCountInString (go "€") = 1 ∧ len (go "€") = 3 ∧
    (Fixture.fresh.GetExchangeRate Fixture.webLib (go "€") (go "USD")).out
      = .ret (Float64.zero, some (.wrapped (go "failed to get rate from API: ")
          (.errorf (go "API returned status 404: 404 Not Found")))) ∧
    ¬ IsInvalidCurrencyCode (.wrapped (go "failed to get rate from API: ")
          (.errorf (go "API returned status 404: 404 Not Found"))) ∧
    (Fixture.fresh.GetExchangeRate Fixture.webLib (go "€") (go "USD")).trace.filter
      Event.isCacheLookup = [.redisGet (go "rate:€:USD")] :=
  ⟨by decide, by decide, by decide, Or.inr rfl, by decide, by decide, by decide,
    wrapped_not_invalid_code _, by decide⟩

/-- C2, amended: `GetExchangeRate(from, to)` fails with an invalid-currency-code error if and
only if `from` or `to` is empty or not exactly 3 bytes long (the unit of Go `len`; 3 characters
when the code is ASCII); when it does, the rate is 0 and no event is performed (no cache lookup,
no origin fetch); and `Convert("US", "EUR", 10)` fails with that error without any event. -/
theorem getExchangeRate_invalid_code_iff (s : CurrencyService) (lib : Lib)
    (cFrom cTo : GoString) :
    ((∃ r e, (s.GetExchangeRate lib cFrom cTo).out = .ret (r, some e) ∧ IsInvalidCurrencyCode e)
      ↔ (cFrom = [] ∨ cTo = [] ∨ len cFrom ≠ 3 ∨ len cTo ≠ 3)) ∧
    ((cFrom = [] ∨ cTo = [] ∨ len cFrom ≠ 3 ∨ len cTo ≠ 3) →
      ∃ e, IsInvalidCurrencyCode e ∧
        s.GetExchangeRate lib cFrom cTo = ⟨[], .ret (Float64.zero, some e)⟩) ∧
    (∃ e, IsInvalidCurrencyCode e ∧
      s.Convert lib (go "US") (go "EUR") Float64.c10
        = ⟨[], .ret (Float64.zero, Float64.zero, some e)⟩) := by
  have hbad : (cFrom = [] ∨ cTo = [] ∨ len cFrom ≠ 3 ∨ len cTo ≠ 3) →
      ∃ e, IsInvalidCurrencyCode e ∧
        s.GetExchangeRate lib cFrom cTo = ⟨[], .ret (Float64.zero, some e)⟩ := by
    intro h
    by_cases he : cFrom = [] ∨ cTo = []
    · exact ⟨.errorf (go "currency codes cannot be empty"), Or.inl rfl,
        by simp only [CurrencyService.GetExchangeRate, if_pos he]⟩
    · have hl : len cFrom ≠ 3 ∨ len cTo ≠ 3 := by tauto
      exact ⟨.errorf (go "currency codes must be 3 characters"), Or.inr rfl,
        by simp only [CurrencyService.GetExchangeRate, if_neg he, if_pos hl]⟩
  refine ⟨⟨?_, ?_⟩, hbad, ?_⟩
  · rintro ⟨r, e, hout, hinv⟩
    by_contra hv
    have hf : len cFrom = 3 := by tauto
    have ht : len cTo = 3 := by tauto
    by_cases hup : ToUpper lib cFrom = ToUpper lib cTo
    · rw [getExchangeRate_equal s lib cFrom cTo hf ht hup] at hout
      simp at hout
    · rw [getExchangeRate_resolve s lib cFrom cTo hf ht hup] at hout
      split at hout
      · simp at hout
      · simp at hout
      · split at hout
        · simp at hout
        · simp only [Outcome.ret.injEq, Prod.mk.injEq, Option.some.injEq] at hout
          exact wrapped_not_invalid_code _ (hout.2 ▸ hinv)
        · simp at hout
  · intro h
    obtain ⟨e, he, hrun⟩ := hbad h
    exact ⟨Float64.zero, e, by rw [hrun], he⟩
  · refine ⟨.errorf (go "currency codes must be 3 characters"), Or.inr rfl, ?_⟩
    have hg : s.GetExchangeRate lib (go "US") (go "EUR")
        = ⟨[], .ret (Float64.zero, some (.errorf (go "currency codes must be 3 characters")))⟩ := by
      simp only [CurrencyService.GetExchangeRate]
      rw [if_neg (by decide), if_pos (by decide)]
    have hle : Float64.le Float64.c10 Float64.zero = false := by decide
    simp only [CurrencyService.Convert, hle, hg]
    rfl

theorem getExchangeRate_invalid_code_iff_witness :
    ∃ e, IsInvalidCurrencyCode e ∧
      Fixture.fresh.GetExchangeRate Fixture.lib (go "EURO") (go "USD")
        = ⟨[], .ret (Float64.zero, some e)⟩ :=
  (getExchangeRate_invalid_code_iff Fixture.fresh Fixture.lib (go "EURO") (go "USD")).2.1
    (Or.inr (Or.inr (Or.inl (by decide))))

/-- C3: for valid codes (3 bytes each) that differ ignoring case and every value `v` that the
cache lookup for `(from, to)` returns without error, `GetExchangeRate(from, to)` returns exactly
`(v, nil)`; its events contain no origin fetch and no cache write (neither a `SET` nor a spawned
write), and exactly the one lookup of the key of the pair. -/
theorem getExchangeRate_cache_hit (s : CurrencyService) (lib : Lib) (cFrom cTo : GoString)
    (v : Float64) (hf : len cFrom = 3) (ht : len cTo = 3)
    (hne : ToUpper lib cFrom ≠ ToUpper lib cTo)
    (hit : (RedisClient.GetExchangeRate s.redis lib cFrom cTo).out = .ret (v, none)) :
    (s.GetExchangeRate lib cFrom cTo).out = .ret (v, none) ∧
    (s.GetExchangeRate lib cFrom cTo).trace.filter Event.isOriginFetch = [] ∧
    (s.GetExchangeRate lib cFrom cTo).trace.filter Event.isCacheWrite = [] ∧
    (s.GetExchangeRate lib cFrom cTo).trace.filter Event.isCacheLookup
      = [.redisGet (rateKey cFrom cTo)] := by
  have hc := cacheLookup_trace s.redis lib cFrom cTo
  have hl := cacheLookup_trace_of_ret s.redis lib cFrom cTo _ hit
  rw [getExchangeRate_resolve s lib cFrom cTo hf ht hne]
  simp only [hit, List.filter_append, hc.1, hc.2, hl]
  simp [List.filter, Event.isOriginFetch, Event.isCacheWrite, Event.isCacheLookup]

theorem getExchangeRate_cache_hit_witness :
    (Fixture.cached.GetExchangeRate Fixture.lib (go "USD") (go "EUR")).out
      = .ret (Float64.c0_85, none) ∧
    (Fixture.cached.GetExchangeRate Fixture.lib (go "USD") (go "EUR")).trace.filter
      Event.isOriginFetch = [] ∧
    (Fixture.cached.GetExchangeRate Fixture.lib (go "USD") (go "EUR")).trace.filter
      Event.isCacheWrite = [] ∧
    (Fixture.cached.GetExchangeRate Fixture.lib (go "USD") (go "EUR")).trace.filter
      Event.isCacheLookup = [.redisGet (rateKey (go "USD") (go "EUR"))] :=
  getExchangeRate_cache_hit Fixture.cached Fixture.lib (go "USD") (go "EUR") Float64.c0_85
    (by decide) (by decide) (by decide) (by decide)

/-- C4: for valid codes (3 bytes each) that differ ignoring case, whenever the cache lookup
returns an error `ce` (the miss `not found` or any other error) and the origin fetch returns
`(r, nil)`, `GetExchangeRate` returns exactly `(r, nil)` and its only cache write is one spawned
goroutine for `(from, to, r)`. The result is the same for every `ce`, and the whole run is the
same whatever the Redis server answers to `SET`. Every goroutine the call spawns, once it runs,
sends exactly one Redis command, `SET rate:<from>:<to>` with the value `r` and the configured
expiry, and ends without a panic whatever the server answers. -/
theorem getExchangeRate_cache_failure_origin_ok (s : CurrencyService) (lib : Lib)
    (cFrom cTo : GoString) (v0 r : Float64) (ce : GoError)
    (hf : len cFrom = 3) (ht : len cTo = 3) (hne : ToUpper lib cFrom ≠ ToUpper lib cTo)
    (hmiss : (RedisClient.GetExchangeRate s.redis lib cFrom cTo).out = .ret (v0, some ce))
    (hfetch : (s.FetchRateFromAPI lib cFrom cTo).out = .ret (r, none)) :
    (s.GetExchangeRate lib cFrom cTo).out = .ret (r, none) ∧
    (s.GetExchangeRate lib cFrom cTo).trace.filter Event.isCacheWrite
      = [.spawn (.cacheWrite cFrom cTo r)] ∧
    (∀ set, (s.withCacheSet set).GetExchangeRate lib cFrom cTo
      = s.GetExchangeRate lib cFrom cTo) ∧
    (∃ rc, s.redis = some rc ∧
      ∀ g, Event.spawn g ∈ (s.GetExchangeRate lib cFrom cTo).trace →
        (g.run s).trace.filter Event.isRedisCommand
          = [.redisSet (go "rate:" ++ cFrom ++ go ":" ++ cTo) r rc.config.TTL] ∧
        (g.run s).out = .ret ()) := by
  have hc := cacheLookup_trace s.redis lib cFrom cTo
  have ha := fetch_trace s lib cFrom cTo
  have hw : (s.GetExchangeRate lib cFrom cTo).trace.filter Event.isCacheWrite
      = [.spawn (.cacheWrite cFrom cTo r)] := by
    rw [getExchangeRate_resolve s lib cFrom cTo hf ht hne]
    simp only [hmiss, hfetch, List.filter_append, hc.2, ha.2]
    rw [missLog_filter _ _ _ _ _ _ (fun _ _ _ => rfl)]
    simp [List.filter, Event.isCacheWrite]
  refine ⟨?_, hw, ?_, ?_⟩
  · rw [getExchangeRate_resolve s lib cFrom cTo hf ht hne]
    simp only [hmiss, hfetch]
  · intro set
    rw [getExchangeRate_resolve s lib cFrom cTo hf ht hne,
      getExchangeRate_resolve (s.withCacheSet set) lib cFrom cTo hf ht hne,
      withCacheSet_lookup]
    rfl
  · obtain ⟨rc, hrc⟩ := cacheLookup_some_of_ret s.redis lib cFrom cTo _ hmiss
    refine ⟨rc, hrc, ?_⟩
    intro g hg
    have hmem : Event.spawn g ∈
        (s.GetExchangeRate lib cFrom cTo).trace.filter Event.isCacheWrite :=
      List.mem_filter.mpr ⟨hg, by cases g; rfl⟩
    rw [hw] at hmem
    simp only [List.mem_singleton, Event.spawn.injEq] at hmem
    subst hmem
    exact cacheWrite_commands s rc cFrom cTo r hrc

theorem getExchangeRate_cache_failure_origin_ok_witness :
    (Fixture.cacheDown.GetExchangeRate Fixture.lib (go "USD") (go "EUR")).out
      = .ret (Float64.c0_9, none) ∧
    (Fixture.cacheDown.GetExchangeRate Fixture.lib (go "USD") (go "EUR")).trace.filter
      Event.isCacheWrite = [.spawn (.cacheWrite (go "USD") (go "EUR") Float64.c0_9)] ∧
    (∀ set, (Fixture.cacheDown.withCacheSet set).GetExchangeRate Fixture.lib (go "USD") (go "EUR")
      = Fixture.cacheDown.GetExchangeRate Fixture.lib (go "USD") (go "EUR")) ∧
    (∃ rc, Fixture.cacheDown.redis = some rc ∧
      ∀ g, Event.spawn g ∈
          (Fixture.cacheDown.GetExchangeRate Fixture.lib (go "USD") (go "EUR")).trace →
        (g.run Fixture.cacheDown).trace.filter Event.isRedisCommand
          = [.redisSet (go "rate:" ++ go "USD" ++ go ":" ++ go "EUR") Float64.c0_9
              rc.config.TTL] ∧
        (g.run Fixture.cacheDown).out = .ret ()) :=
  getExchangeRate_cache_failure_origin_ok Fixture.cacheDown Fixture.lib (go "USD") (go "EUR")
    Float64.zero Float64.c0_9
    (.errorf (go "dial tcp 127.0.0.1:6379: connect: connection refused"))
    (by decide) (by decide) (by decide) (by decide) (by decide)

/-- C5: for valid codes (3 bytes each) that differ ignoring case, when the cache lookup returns
an error (a miss in particular) and the origin fetch fails with error `e`, `GetExchangeRate`
returns rate 0 and an error that unwraps to `e` and whose message is
`failed to get rate from API: ` followed by the message of `e`; its events contain no cache
write, performed or spawned. -/
theorem getExchangeRate_origin_failure (s : CurrencyService) (lib : Lib)
    (cFrom cTo : GoString) (v0 x : Float64) (ce e : GoError)
    (hf : len cFrom = 3) (ht : len cTo = 3) (hne : ToUpper lib cFrom ≠ ToUpper lib cTo)
    (hmiss : (RedisClient.GetExchangeRate s.redis lib cFrom cTo).out = .ret (v0, some ce))
    (hfetch : (s.FetchRateFromAPI lib cFrom cTo).out = .ret (x, some e)) :
    ∃ err, (s.GetExchangeRate lib cFrom cTo).out = .ret (Float64.zero, some err) ∧
      err.Unwrap = some e ∧
      err.Error = go "failed to get rate from API: " ++ e.Error ∧
      (s.GetExchangeRate lib cFrom cTo).trace.filter Event.isCacheWrite = [] := by
  have hc := cacheLookup_trace s.redis lib cFrom cTo
  have ha := fetch_trace s lib cFrom cTo
  refine ⟨.wrapped (go "failed to get rate from API: ") e, ?_, rfl, rfl, ?_⟩
  · rw [getExchangeRate_resolve s lib cFrom cTo hf ht hne]
    simp only [hmiss, hfetch]
  · rw [getExchangeRate_resolve s lib cFrom cTo hf ht hne]
    simp only [hmiss, hfetch, List.filter_append, hc.2, ha.2]
    rw [missLog_filter _ _ _ _ _ _ (fun _ _ _ => rfl)]
    rfl

theorem getExchangeRate_origin_failure_witness :
    ∃ err, (Fixture.originDown.GetExchangeRate Fixture.lib (go "USD") (go "EUR")).out
        = .ret (Float64.zero, some err) ∧
      err.Unwrap
        = some (.wrapped (go "API request failed: ")
            (.errorf (go "dial tcp: lookup v6.exchangerate-api.com: no such host"))) ∧
      err.Error = go "failed to get rate from API: " ++
        (GoError.wrapped (go "API request failed: ")
          (.errorf (go "dial tcp: lookup v6.exchangerate-api.com: no such host"))).Error ∧
      (Fixture.originDown.GetExchangeRate Fixture.lib (go "USD") (go "EUR")).trace.filter
        Event.isCacheWrite = [] :=
  getExchangeRate_origin_failure Fixture.originDown Fixture.lib (go "USD") (go "EUR")
    Float64.zero Float64.zero
    (.errorf (go "exchange rate not found for " ++ go "USD" ++ go " to " ++ go "EUR"))
    (.wrapped (go "API request failed: ")
      (.errorf (go "dial tcp: lookup v6.exchangerate-api.com: no such host")))
    (by decide) (by decide) (by decide) (by decide) (by decide)

/-- C6 (the code at the failing input): whatever the configuration, the upstream and the library,
the service that `app.New` builds after `NewRedisClient` failed holds a nil `*RedisClient`, and
`GetExchangeRate("USD", "EUR")` on it panics with a nil pointer dereference before any event;
so does `Convert`, and so would the detached cache write. With the healthy upstream of the
fixture the origin fetch alone would have returned `(0.9, nil)`. -/
theorem getExchangeRate_without_redis_panics (cfg : Config) (conn : RedisConn)
    (pingErr : GoError) (httpClient : GoString → HttpResult) (lib : Lib) (r : Float64) :
    (appNewService cfg conn (some pingErr) httpClient).redis = none ∧
    (appNewService cfg conn (some pingErr) httpClient).GetExchangeRate lib (go "USD") (go "EUR")
      = ⟨[], .panic nilDereference⟩ ∧
    (appNewService cfg conn (some pingErr) httpClient).Convert lib (go "USD") (go "EUR")
      Float64.c10 = ⟨[], .panic nilDereference⟩ ∧
    (appNewService cfg conn (some pingErr) httpClient).cacheWrite (go "USD") (go "EUR") r
      = ⟨[], .panic nilDereference⟩ ∧
    (Fixture.noRedis.FetchRateFromAPI Fixture.lib (go "USD") (go "EUR")).out
      = .ret (Float64.c0_9, none) := by
  have hg : (appNewService cfg conn (some pingErr) httpClient).GetExchangeRate lib
      (go "USD") (go "EUR") = ⟨[], .panic nilDereference⟩ := by
    rw [getExchangeRate_resolve _ lib _ _ (by decide) (by decide) (ToUpper_USD_ne_EUR lib)]
    rfl
  have hle : Float64.le Float64.c10 Float64.zero = false := by decide
  refine ⟨rfl, hg, ?_, rfl, by decide⟩
  simp only [CurrencyService.Convert, hle, hg]
  rfl

/-- C7: for every amount `<= 0` and every `from`, `to`, `Convert` returns `(0, 0, err)` with the
invalid-amount error and performs no event: the resolver is not called, so there is no code
validation, cache lookup, origin fetch or cache write. -/
theorem convert_nonpositive_amount (s : CurrencyService) (lib : Lib) (cFrom cTo : GoString)
    (amount : Float64) (hle : Float64.le amount Float64.zero = true) :
    ∃ e, IsInvalidAmount lib amount e ∧
      s.Convert lib cFrom cTo amount = ⟨[], .ret (Float64.zero, Float64.zero, some e)⟩ := by
  refine ⟨_, rfl, ?_⟩
  simp only [CurrencyService.Convert, hle, if_true]

theorem convert_nonpositive_amount_witness :
    ∃ e, IsInvalidAmount Fixture.lib Fixture.minusOne e ∧
      Fixture.noRedis.Convert Fixture.lib (go "US") (go "EUR") Fixture.minusOne
        = ⟨[], .ret (Float64.zero, Float64.zero, some e)⟩ :=
  convert_nonpositive_amount Fixture.noRedis Fixture.lib (go "US") (go "EUR") Fixture.minusOne
    (by decide)

/-- C8: for every amount `> 0` and every `from`, `to` for which `GetExchangeRate` returns
`(rate, nil)`, `Convert` returns `(amount * rate, rate, nil)`: the float64 product, not rounded
further, and the rate of the resolver. With `0.85` cached for `(USD, EUR)`,
`Convert("USD", "EUR", 100)` is `(85.0, 0.85, nil)` and no origin fetch happens; with an empty
cache and the origin table `EUR: 0.9`, `Convert("USD", "EUR", 10)` is `(9.0, 0.9, nil)`. -/
theorem convert_result (s : CurrencyService) (lib : Lib) :
    (∀ (cFrom cTo : GoString) (amount rate : Float64),
      Float64.lt Float64.zero amount = true →
      (s.GetExchangeRate lib cFrom cTo).out = .ret (rate, none) →
      (s.Convert lib cFrom cTo amount).out = .ret (Float64.mul amount rate, rate, none)) ∧
    (∀ (r : RedisClient) (txt : GoString),
      s.redis = some r →
      r.client.get (go "rate:USD:EUR") = .value txt →
      lib.parseFloat txt = .ok Float64.c0_85 →
      (s.Convert lib (go "USD") (go "EUR") Float64.c100).out
        = .ret (Float64.c85, Float64.c0_85, none) ∧
      (s.Convert lib (go "USD") (go "EUR") Float64.c100).trace.filter Event.isOriginFetch = []) ∧
    (∀ (r : RedisClient) (status body : GoString),
      s.redis = some r →
      r.client.get (go "rate:USD:EUR") = .nil →
      lib.newRequest (apiURL s.config (go "USD")) = none →
      s.httpClient (apiURL s.config (go "USD")) = .response 200 status body none →
      lib.jsonUnmarshal body = .ok ⟨go "success", go "USD", [(go "EUR", Float64.c0_9)]⟩ →
      (s.Convert lib (go "USD") (go "EUR") Float64.c10).out
        = .ret (Float64.c9, Float64.c0_9, none)) := by
  have hkey : rateKey (go "USD") (go "EUR") = go "rate:USD:EUR" := by decide
  have hne := ToUpper_USD_ne_EUR lib
  refine ⟨?_, ?_, ?_⟩
  · intro cFrom cTo amount rate hpos hrate
    rw [convert_of_rate s lib cFrom cTo amount rate (lt_zero_not_le amount hpos) hrate]
  · intro r txt hs hget hparse
    have hit : (RedisClient.GetExchangeRate s.redis lib (go "USD") (go "EUR")).out
        = .ret (Float64.c0_85, none) := by
      simp only [RedisClient.GetExchangeRate, hs, hkey, hget, hparse]
    have hc := cacheLookup_trace s.redis lib (go "USD") (go "EUR")
    have hrate : (s.GetExchangeRate lib (go "USD") (go "EUR")).out
        = .ret (Float64.c0_85, none) := by
      rw [getExchangeRate_resolve s lib _ _ (by decide) (by decide) hne]
      simp only [hit]
    have htrace : (s.GetExchangeRate lib (go "USD") (go "EUR")).trace.filter
        Event.isOriginFetch = [] := by
      rw [getExchangeRate_resolve s lib _ _ (by decide) (by decide) hne]
      simp only [hit, List.filter_append, hc.1]
      rfl
    rw [convert_of_rate s lib _ _ Float64.c100 Float64.c0_85 (by decide) hrate]
    refine ⟨?_, ?_⟩
    · have hm : Float64.mul Float64.c100 Float64.c0_85 = Float64.c85 := by decide
      simp only [hm]
    · simp only [List.filter_append, htrace]
      rfl
  · intro r status body hs hget hreq hhttp hjson
    have hmiss : (RedisClient.GetExchangeRate s.redis lib (go "USD") (go "EUR")).out
        = .ret (Float64.zero, some (.errorf
            (go "exchange rate not found for " ++ go "USD" ++ go " to " ++ go "EUR"))) := by
      simp only [RedisClient.GetExchangeRate, hs, hkey, hget]
    have hlook : List.lookup (go "EUR") [(go "EUR", Float64.c0_9)] = some Float64.c0_9 := by
      decide
    have hfetch : (s.FetchRateFromAPI lib (go "USD") (go "EUR")).out
        = .ret (Float64.c0_9, none) := by
      simp only [CurrencyService.FetchRateFromAPI, hreq, hhttp, hjson, hlook, ne_eq,
        not_true_eq_false, if_false]
    have hrate : (s.GetExchangeRate lib (go "USD") (go "EUR")).out
        = .ret (Float64.c0_9, none) := by
      rw [getExchangeRate_resolve s lib _ _ (by decide) (by decide) hne]
      simp only [hmiss, hfetch]
    rw [convert_of_rate s lib _ _ Float64.c10 Float64.c0_9 (by decide) hrate]
    have hm : Float64.mul Float64.c10 Float64.c0_9 = Float64.c9 := by decide
    simp only [hm]

theorem convert_result_witness :
    (Fixture.fresh.Convert Fixture.lib (go "USD") (go "EUR") Float64.c100).out
      = .ret (Float64.mul Float64.c100 Float64.c0_9, Float64.c0_9, none) ∧
    ((Fixture.cached.Convert Fixture.lib (go "USD") (go "EUR") Float64.c100).out
        = .ret (Float64.c85, Float64.c0_85, none) ∧
      (Fixture.cached.Convert Fixture.lib (go "USD") (go "EUR") Float64.c100).trace.filter
        Event.isOriginFetch = []) ∧
    (Fixture.fresh.Convert Fixture.lib (go "USD") (go "EUR") Float64.c10).out
      = .ret (Float64.c9, Float64.c0_9, none) :=
  ⟨(convert_result Fixture.fresh Fixture.lib).1 (go "USD") (go "EUR") Float64.c100 Float64.c0_9
      (by decide) (by decide),
   (convert_result Fixture.cached Fixture.lib).2.1 ⟨Fixture.cachedConn, Fixture.config.Redis⟩
      (go "0.85") rfl (by decide) rfl,
   (convert_result Fixture.fresh Fixture.lib).2.2 ⟨Fixture.emptyConn, Fixture.config.Redis⟩
      (go "200 OK") Fixture.body rfl (by decide) (by decide) (by decide) rfl⟩

/-- C9, as stated, fails: for the upstream response with status 404, status text
`404 Not Found` and body `malformed request`, `FetchRateFromAPI` returns rate 0 and an error
whose message carries the status code but no initial part of the body. -/
theorem fetchRate_http_error_omits_body :
    (Fixture.origin404.FetchRateFromAPI Fixture.lib (go "USD") (go "EUR")).out
      = .ret (Float64.zero, some (.errorf (go "API returned status 404: 404 Not Found"))) ∧
    Contains (GoError.errorf (go "API returned status 404: 404 Not Found")).Error (itoa 404)
      = true ∧
    CarriesSnippetOf (GoError.errorf (go "API returned status 404: 404 Not Found")).Error
      (go "malformed request") = false := by
  decide

/-- C9, amended: for every upstream response whose HTTP status is not in the 2xx range,
`FetchRateFromAPI` returns rate 0 and an HTTP-status error whose message is
`API returned status <code>: <status text>`: it carries the numeric status code and the status
text of the response and is the same whatever the body contains; the body is written to the
error log only. -/
theorem fetchRate_http_error (s : CurrencyService) (lib : Lib) (cFrom cTo : GoString)
    (statusCode : Int) (status body : GoString) (readErr : Option GoError)
    (hreq : lib.newRequest (apiURL s.config cFrom) = none)
    (hresp : s.httpClient (apiURL s.config cFrom) = .response statusCode status body readErr)
    (h2xx : ¬ (200 ≤ statusCode ∧ statusCode < 300)) :
    ∃ e, (s.FetchRateFromAPI lib cFrom cTo).out = .ret (Float64.zero, some e) ∧
      e.Error = go "API returned status " ++ itoa statusCode ++ go ": " ++ status ∧
      Contains e.Error (itoa statusCode) = true ∧
      Contains e.Error status = true ∧
      Event.log .error (go "API returned error status")
        [.str (go "from") cFrom, .str (go "to") cTo, .int (go "status_code") statusCode,
         .str (go "status") status, .str (go "response") body]
        ∈ (s.FetchRateFromAPI lib cFrom cTo).trace := by
  have hne : statusCode ≠ 200 := by omega
  refine ⟨.errorf (go "API returned status " ++ itoa statusCode ++ go ": " ++ status),
    ?_, rfl, ?_, ?_, ?_⟩
  · simp only [CurrencyService.FetchRateFromAPI, hreq, hresp, hne, ne_eq, not_false_eq_true,
      if_true]
  · simp only [GoError.Error, List.append_assoc]
    exact Contains_append_right _ _ _
  · have h := Contains_append_right
      (go "API returned status " ++ itoa statusCode ++ go ": ") status []
    simpa only [GoError.Error, List.append_nil] using h
  · simp only [CurrencyService.FetchRateFromAPI, hreq, hresp, hne, ne_eq, not_false_eq_true,
      if_true]
    simp

theorem fetchRate_http_error_witness :
    ∃ e, (Fixture.origin404.FetchRateFromAPI Fixture.lib (go "USD") (go "EUR")).out
        = .ret (Float64.zero, some e) ∧
      e.Error = go "API returned status " ++ itoa 404 ++ go ": " ++ go "404 Not Found" ∧
      Contains e.Error (itoa 404) = true ∧
      Contains e.Error (go "404 Not Found") = true ∧
      Event.log .error (go "API returned error status")
        [.str (go "from") (go "USD"), .str (go "to") (go "EUR"), .int (go "status_code") 404,
         .str (go "status") (go "404 Not Found"), .str (go "response") (go "malformed request")]
        ∈ (Fixture.origin404.FetchRateFromAPI Fixture.lib (go "USD") (go "EUR")).trace :=
  fetchRate_http_error Fixture.origin404 Fixture.lib (go "USD") (go "EUR") 404
    (go "404 Not Found") (go "malformed request") none rfl rfl (by decide)

/-- C10: for every upstream response with status 200 whose body is read and decoded and whose
`result` field is `success`, with rate table `T`: if `T` has an entry for `to`,
`FetchRateFromAPI(from, to)` returns exactly `(T[to], nil)`; if it has none, it returns rate 0
and the error `currency <to> not found in API response`, which names `to`. -/
theorem fetchRate_success (s : CurrencyService) (lib : Lib) (cFrom cTo : GoString)
    (status body : GoString) (resp : ApiResponse)
    (hreq : lib.newRequest (apiURL s.config cFrom) = none)
    (hresp : s.httpClient (apiURL s.config cFrom) = .response 200 status body none)
    (hjson : lib.jsonUnmarshal body = .ok resp)
    (hok : resp.Result = go "success") :
    (∀ rate, resp.ConversionRates.lookup cTo = some rate →
      (s.FetchRateFromAPI lib cFrom cTo).out = .ret (rate, none)) ∧
    (resp.ConversionRates.lookup cTo = none →
      ∃ e, (s.FetchRateFromAPI lib cFrom cTo).out = .ret (Float64.zero, some e) ∧
        e.Error = go "currency " ++ cTo ++ go " not found in API response" ∧
        Contains e.Error cTo = true) := by
  constructor
  · intro rate hl
    simp only [CurrencyService.FetchRateFromAPI, hreq, hresp, hjson, hok, hl, ne_eq,
      not_true_eq_false, if_false]
  · intro hl
    refine ⟨.errorf (go "currency " ++ cTo ++ go " not found in API response"), ?_, rfl, ?_⟩
    · simp only [CurrencyService.FetchRateFromAPI, hreq, hresp, hjson, hok, hl, ne_eq,
        not_true_eq_false, if_false]
    · simp only [GoError.Error, List.append_assoc]
      exact Contains_append_right _ _ _

theorem fetchRate_success_witness :
    (Fixture.fresh.FetchRateFromAPI Fixture.lib (go "USD") (go "EUR")).out
      = .ret (Float64.c0_9, none) ∧
    (∃ e, (Fixture.fresh.FetchRateFromAPI Fixture.lib (go "USD") (go "GBP")).out
        = .ret (Float64.zero, some e) ∧
      e.Error = go "currency " ++ go "GBP" ++ go " not found in API response" ∧
      Contains e.Error (go "GBP") = true) :=
  ⟨(fetchRate_success Fixture.fresh Fixture.lib (go "USD") (go "EUR") (go "200 OK")
      Fixture.body ⟨go "success", go "USD", [(go "EUR", Float64.c0_9)]⟩ rfl rfl rfl rfl).1
      Float64.c0_9 (by decide),
   (fetchRate_success Fixture.fresh Fixture.lib (go "USD") (go "GBP") (go "200 OK")
      Fixture.body ⟨go "success", go "USD", [(go "EUR", Float64.c0_9)]⟩ rfl rfl rfl rfl).2
      (by decide)⟩

/-! ## Lemmas for the handler, the store and the logs -/

theorem Contains_append_self (a b : GoString) : Contains (a ++ b) b = true := by
  have h := Contains_append_right a b []
  simpa only [List.append_nil] using h

theorem convert_of_error (s : CurrencyService) (lib : Lib) (cFrom cTo : GoString)
    (amount x : Float64) (e : GoError) (hpos : Float64.le amount Float64.zero = false)
    (hrate : (s.GetExchangeRate lib cFrom cTo).out = .ret (x, some e)) :
    s.Convert lib cFrom cTo amount =
      ⟨(s.GetExchangeRate lib cFrom cTo).trace, .ret (Float64.zero, Float64.zero, some e)⟩ := by
  simp only [CurrencyService.Convert, hpos, hrate]
  rfl

theorem convert_error_zero (s : CurrencyService) (lib : Lib) (cFrom cTo : GoString)
    (amount res rate : Float64) (e : GoError)
    (h : (s.Convert lib cFrom cTo amount).out = .ret (res, rate, some e)) :
    res = Float64.zero ∧ rate = Float64.zero := by
  unfold CurrencyService.Convert at h
  simp only [] at h
  split at h
  · simp only [Outcome.ret.injEq, Prod.mk.injEq] at h
    exact ⟨h.1.symm, h.2.1.symm⟩
  · split at h
    · simp at h
    · simp only [Outcome.ret.injEq, Prod.mk.injEq] at h
      exact ⟨h.1.symm, h.2.1.symm⟩
    · simp at h

theorem rateKey_injective (f t f' t' : GoString) (hf : len f = 3) (hf' : len f' = 3)
    (h : rateKey f t = rateKey f' t') : f = f' ∧ t = t' := by
  simp only [rateKey, List.append_assoc] at h
  have h1 := List.append_cancel_left h
  have h2 := List.append_inj h1 (by simp only [len] at hf hf'; omega)
  exact ⟨h2.1, List.append_cancel_left h2.2⟩

theorem store_after_set (fmt : Float64 → GoString) (st : Store) (r : RedisClient)
    (f t : GoString) (rate : Float64) (k : GoString) (hk : k ≠ rateKey f t) :
    Store.after fmt st (RedisClient.SetExchangeRate (some r) f t rate).trace k = st k := by
  unfold RedisClient.SetExchangeRate
  simp only []
  split <;> simp [Store.after, Store.step, hk]

theorem store_after_delete (fmt : Float64 → GoString) (st : Store) (r : RedisClient)
    (f t : GoString) (k : GoString) (hk : k ≠ rateKey f t) :
    Store.after fmt st (RedisClient.DeleteExchangeRate (some r) f t).trace k = st k := by
  unfold RedisClient.DeleteExchangeRate
  simp only []
  split <;> simp [Store.after, Store.step, hk]

theorem cacheLookup_of_store (st st' : Store) (cfg : RedisConfig) (lib : Lib) (f t : GoString)
    (h : st' (rateKey f t) = st (rateKey f t)) :
    RedisClient.GetExchangeRate (some ⟨st'.conn, cfg⟩) lib f t
      = RedisClient.GetExchangeRate (some ⟨st.conn, cfg⟩) lib f t := by
  simp only [RedisClient.GetExchangeRate, Store.conn, h]

theorem lt_not_le (x c : Float64) (h : Float64.lt x c = true) : Float64.le c x = false := by
  simp only [Float64.lt, Float64.le, Bool.and_eq_true, decide_eq_true_eq] at h ⊢
  have h2 := h.2
  simp only [Bool.and_eq_false_iff, decide_eq_false_iff_not]
  right
  omega

theorem fieldError_ne_nil (field tag : GoString) : fieldError field tag ≠ [] := by
  intro h
  have h1 : (fieldError field tag).head? = some 75 := by
    simp only [fieldError, List.append_assoc]
    exact head?_append_of_head? (by decide)
  rw [h] at h1
  simp at h1

theorem joinLines_ne_nil (m : GoString) (rest : List GoString) (hm : m ≠ []) :
    joinLines (m :: rest) ≠ [] := by
  cases rest with
  | nil => simpa [joinLines] using hm
  | cons a l => simp [joinLines, hm]

theorem validateCode_msg (field v m : GoString) (h : validateCode field v = some m) :
    m ≠ [] := by
  unfold validateCode at h
  split_ifs at h <;> simp only [Option.some.injEq] at h <;> rw [← h] <;>
    exact fieldError_ne_nil _ _

theorem validateAmount_msg (a : Float64) (m : GoString) (h : validateAmount a = some m) :
    m ≠ [] := by
  unfold validateAmount at h
  split_ifs at h <;> simp only [Option.some.injEq] at h <;> rw [← h] <;>
    exact fieldError_ne_nil _ _

theorem validateCode_bad (field v : GoString) (h : v = [] ∨ RuneCountInString v ≠ 3) :
    validateCode field v ≠ none := by
  unfold validateCode
  split_ifs with h1 h2
  · simp
  · simp
  · tauto

theorem validateStruct_cons (req : ConvertRequest)
    (h : validateCode (go "From") req.From ≠ none ∨ validateCode (go "To") req.To ≠ none ∨
      validateAmount req.Amount ≠ none) :
    ∃ m rest, validateStruct req = m :: rest ∧ m ≠ [] := by
  unfold validateStruct
  cases hA : validateCode (go "From") req.From with
  | some a => exact ⟨a, _, rfl, validateCode_msg _ _ _ hA⟩
  | none =>
    cases hB : validateCode (go "To") req.To with
    | some b => exact ⟨b, _, rfl, validateCode_msg _ _ _ hB⟩
    | none =>
      cases hC : validateAmount req.Amount with
      | some c => exact ⟨c, _, rfl, validateAmount_msg _ _ hC⟩
      | none => simp [hA, hB, hC] at h

theorem bind_rejects (lib : Lib) (q : Query) (hlib : lib.parseErrorsHaveText)
    (hbad : q.Invalid lib) : ∃ e, ShouldBindQuery lib q = .error e ∧ e.Error ≠ [] := by
  unfold ShouldBindQuery
  cases hset : setFloatField lib q.amount with
  | error e =>
    refine ⟨e, rfl, ?_⟩
    cases ha : q.amount with
    | none => simp [ha, setFloatField] at hset
    | some v =>
      rw [ha] at hset
      exact hlib _ e hset
  | ok x =>
    have hmsg : ∃ m rest, validateStruct ⟨q.qFrom.getD [], q.qTo.getD [], x⟩ = m :: rest ∧
        m ≠ [] := by
      apply validateStruct_cons
      rcases hbad with h | ⟨v, h, hv⟩ | h | ⟨v, h, hv⟩ | h | ⟨e, h⟩ | ⟨y, h, hy⟩
      · exact Or.inl (validateCode_bad _ _ (Or.inl (by simp [h])))
      · exact Or.inl (validateCode_bad _ _ (Or.inr (by simpa [h] using hv)))
      · exact Or.inr (Or.inl (validateCode_bad _ _ (Or.inl (by simp [h]))))
      · exact Or.inr (Or.inl (validateCode_bad _ _ (Or.inr (by simpa [h] using hv))))
      · right; right
        rw [h] at hset
        simp only [setFloatField, Except.ok.injEq] at hset
        rw [← hset]
        show validateAmount Float64.zero ≠ none
        decide
      · rw [h] at hset
        simp at hset
      · right; right
        rw [h] at hset
        simp only [Except.ok.injEq] at hset
        rw [← hset]
        show validateAmount y ≠ none
        unfold validateAmount
        rw [lt_not_le y _ hy]
        split_ifs with h1 h2
        · simp
        · simp
        · simp at h2
    obtain ⟨m, rest, hm, hne⟩ := hmsg
    simp only [hm]
    exact ⟨_, rfl, joinLines_ne_nil m rest hne⟩

theorem webLib_parseErrorsHaveText : Fixture.webLib.parseErrorsHaveText := by
  intro s e h
  simp only [Fixture.webLib] at h
  split_ifs at h
  simp only [Except.error.injEq] at h
  rw [← h]
  decide

theorem fetch_trace_prologue (s : CurrencyService) (lib : Lib) (cFrom cTo : GoString) :
    ∃ rest, (s.FetchRateFromAPI lib cFrom cTo).trace = fetchPrologue s.config cFrom cTo ++ rest := by
  unfold CurrencyService.FetchRateFromAPI
  simp only []
  split
  · exact ⟨_, rfl⟩
  · split
    · exact ⟨_, rfl⟩
    · exact ⟨_, rfl⟩
    · exact ⟨_, rfl⟩
    · split
      · exact ⟨_, rfl⟩
      · split
        · exact ⟨_, rfl⟩
        · split
          · exact ⟨_, rfl⟩
          · split
            · exact ⟨_, rfl⟩
            · split <;> exact ⟨_, rfl⟩

theorem getExchangeRate_invalid (s : CurrencyService) (lib : Lib) (cFrom cTo : GoString)
    (h : cFrom = [] ∨ cTo = [] ∨ len cFrom ≠ 3 ∨ len cTo ≠ 3) :
    ∃ e, IsInvalidCurrencyCode e ∧
      s.GetExchangeRate lib cFrom cTo = ⟨[], .ret (Float64.zero, some e)⟩ := by
  by_cases he : cFrom = [] ∨ cTo = []
  · exact ⟨.errorf (go "currency codes cannot be empty"), Or.inl rfl,
      by simp only [CurrencyService.GetExchangeRate, if_pos he]⟩
  · have hl : len cFrom ≠ 3 ∨ len cTo ≠ 3 := by tauto
    exact ⟨.errorf (go "currency codes must be 3 characters"), Or.inr rfl,
      by simp only [CurrencyService.GetExchangeRate, if_neg he, if_pos hl]⟩

theorem cacheLookup_ok_inv (r : Option RedisClient) (lib : Lib) (f t : GoString) (v : Float64)
    (h : (RedisClient.GetExchangeRate r lib f t).out = .ret (v, none)) :
    ∃ c txt, r = some c ∧ c.client.get (rateKey f t) = .value txt ∧
      lib.parseFloat txt = .ok v := by
  unfold RedisClient.GetExchangeRate at h
  cases r with
  | none => simp at h
  | some c =>
    simp only [] at h
    split at h
    · simp at h
    · simp at h
    · rename_i txt hget
      split at h
      · simp at h
      · rename_i value hparse
        simp only [Outcome.ret.injEq, Prod.mk.injEq, and_true] at h
        exact ⟨c, txt, rfl, hget, by rw [hparse, h]⟩

theorem fetch_ok_inv (s : CurrencyService) (lib : Lib) (f t : GoString) (v : Float64)
    (h : (s.FetchRateFromAPI lib f t).out = .ret (v, none)) :
    ∃ status body resp, s.httpClient (apiURL s.config f) = .response 200 status body none ∧
      lib.jsonUnmarshal body = .ok resp ∧ resp.Result = go "success" ∧
      resp.ConversionRates.lookup t = some v := by
  unfold CurrencyService.FetchRateFromAPI at h
  simp only [] at h
  split at h
  · simp at h
  · split at h
    · simp at h
    · simp at h
    · simp at h
    · rename_i code status body readErr hhttp
      split at h
      · simp at h
      · rename_i hcode
        split at h
        · simp at h
        · split at h
          · simp at h
          · rename_i resp hjson
            split at h
            · simp at h
            · rename_i hres
              split at h
              · simp at h
              · rename_i rate hl
                simp only [Outcome.ret.injEq, Prod.mk.injEq, and_true] at h
                have hc : code = 200 := not_not.mp hcode
                have hr : resp.Result = go "success" := not_not.mp hres
                exact ⟨status, body, resp, by rw [hhttp, hc], hjson, hr, by rw [hl, h]⟩

theorem le_zero_of_small (b : Nat) (h : b < 2047 * 2 ^ 52) :
    Float64.le Float64.zero ⟨b⟩ = true := by
  have hz : Float64.zero.key = 0 := by decide
  have hn : Float64.zero.isNaN = false := by decide
  have hs : (b / 2 ^ 63 % 2 = 1) = False := by
    simp only [eq_iff_iff, iff_false]
    norm_num at h ⊢
    omega
  have he : b / 2 ^ 52 % 2 ^ 11 ≠ 2047 := by
    norm_num at h ⊢
    omega
  have hn2 : (⟨b⟩ : Float64).isNaN = false := by
    simp only [Float64.isNaN, Float64.expo, he, false_and, decide_False]
  have hk : (⟨b⟩ : Float64).key = ((b % 2 ^ 63 : Nat) : Int) := by
    simp only [Float64.key, Float64.sign, hs, decide_False, Bool.false_eq_true, if_false]
  simp only [Float64.le, hz, hn, hn2, hk, Bool.not_false, Bool.true_and, decide_eq_true_eq]
  exact Int.natCast_nonneg _

theorem lt_zero_sign (a : Float64) (h : Float64.lt Float64.zero a = true) :
    a.isNaN = false ∧ a.sign = false := by
  have hz : Float64.zero.key = 0 := by decide
  simp only [Float64.lt, hz, Bool.and_eq_true, decide_eq_true_eq, Bool.not_eq_true'] at h
  refine ⟨h.1.2, ?_⟩
  have h2 := h.2
  simp only [Float64.key] at h2
  by_contra hs
  simp only [Bool.not_eq_false] at hs
  simp only [hs, if_true] at h2
  omega

theorem roundPack_nonneg (p t : Nat) :
    Float64.le Float64.zero (Float64.roundPack false p t) = true := by
  unfold Float64.roundPack
  simp only [Bool.false_eq_true, if_false, Nat.zero_add]
  split_ifs <;> first
    | decide
    | exact le_zero_of_small _ (not_le.mp ‹_›)

theorem mul_nonneg (a r : Float64) (ha : Float64.lt Float64.zero a = true)
    (hr : r.isPositiveFinite = true) : Float64.le Float64.zero (Float64.mul a r) = true := by
  obtain ⟨han, has⟩ := lt_zero_sign a ha
  simp only [Float64.isPositiveFinite, Bool.and_eq_true, Bool.not_eq_true', bne_iff_ne,
    ne_eq] at hr
  obtain ⟨⟨hrs, hre⟩, hrz⟩ := hr
  have hrn : r.isNaN = false := by
    simp only [Float64.isNaN, hre, false_and, decide_False]
  have hri : r.isInf = false := by
    simp only [Float64.isInf, hre, false_and, decide_False]
  simp only [Float64.mul, han, hrn, has, hrs, hri, hrz, Bool.or_false, Bool.false_eq_true,
    if_false, bne_self_eq_false]
  split_ifs with h1 h2
  · decide
  · decide
  · exact roundPack_nonneg _ _

theorem getExchangeRate_ok_inv (s : CurrencyService) (lib : Lib) (f t : GoString)
    (rate : Float64) (h : (s.GetExchangeRate lib f t).out = .ret (rate, none)) :
    rate = Float64.one ∨
    (RedisClient.GetExchangeRate s.redis lib f t).out = .ret (rate, none) ∨
    (s.FetchRateFromAPI lib f t).out = .ret (rate, none) := by
  by_cases hv : f = [] ∨ t = [] ∨ len f ≠ 3 ∨ len t ≠ 3
  · obtain ⟨e, _, hg⟩ := getExchangeRate_invalid s lib f t hv
    rw [hg] at h
    simp at h
  · have hf : len f = 3 := by tauto
    have ht : len t = 3 := by tauto
    by_cases hup : ToUpper lib f = ToUpper lib t
    · rw [getExchangeRate_equal s lib f t hf ht hup] at h
      simp only [Outcome.ret.injEq, Prod.mk.injEq, and_true] at h
      exact Or.inl h.symm
    · rw [getExchangeRate_resolve s lib f t hf ht hup] at h
      split at h
      · simp at h
      · rename_i r0 hc
        simp only [Outcome.ret.injEq, Prod.mk.injEq, and_true] at h
        exact Or.inr (Or.inl (by rw [hc, h]))
      · split at h
        · simp at h
        · simp at h
        · rename_i r0 ha
          simp only [Outcome.ret.injEq, Prod.mk.injEq, and_true] at h
          exact Or.inr (Or.inr (by rw [ha, h]))

theorem convert_ok_inv (s : CurrencyService) (lib : Lib) (f t : GoString)
    (amount res rate : Float64)
    (h : (s.Convert lib f t amount).out = .ret (res, rate, none)) :
    (s.GetExchangeRate lib f t).out = .ret (rate, none) ∧ res = Float64.mul amount rate := by
  unfold CurrencyService.Convert at h
  simp only [] at h
  split at h
  · simp at h
  · split at h
    · simp at h
    · simp at h
    · rename_i r0 hg
      simp only [Outcome.ret.injEq, Prod.mk.injEq, and_true] at h
      refine ⟨by rw [hg, h.2], ?_⟩
      rw [← h.1, h.2]

theorem cacheLookup_ret_of_some (r : RedisClient) (lib : Lib) (f t : GoString) :
    ∃ x, (RedisClient.GetExchangeRate (some r) lib f t).out = .ret x := by
  unfold RedisClient.GetExchangeRate
  simp only []
  split
  · exact ⟨_, rfl⟩
  · exact ⟨_, rfl⟩
  · split <;> exact ⟨_, rfl⟩

theorem getExchangeRate_lookup_key (s : CurrencyService) (lib : Lib) (f t : GoString)
    (r : RedisClient) (hr : s.redis = some r) (hf : len f = 3) (ht : len t = 3)
    (hne : ToUpper lib f ≠ ToUpper lib t) :
    (s.GetExchangeRate lib f t).trace.filter Event.isCacheLookup
      = [.redisGet (rateKey f t)] := by
  obtain ⟨x, hx⟩ := cacheLookup_ret_of_some r lib f t
  rw [← hr] at hx
  have hl := cacheLookup_trace_of_ret s.redis lib f t x hx
  have ha := (fetch_trace s lib f t).1
  rw [getExchangeRate_resolve s lib f t hf ht hne]
  split
  · rename_i hp
    rw [hx] at hp
    simp at hp
  · simp only [List.filter_append, hl]
    rfl
  · split
    · simp only [List.filter_append, hl, ha]
      rw [missLog_filter _ _ _ _ _ _ (fun _ _ _ => rfl)]
      rfl
    · simp only [List.filter_append, hl, ha]
      rw [missLog_filter _ _ _ _ _ _ (fun _ _ _ => rfl)]
      rfl
    · simp only [List.filter_append, hl, ha]
      rw [missLog_filter _ _ _ _ _ _ (fun _ _ _ => rfl)]
      rfl

/-! ## Claims, continued -/

/-- C11: for every upstream response with status 200 whose body decodes and whose `result` field
is not `success`, `FetchRateFromAPI` returns rate 0 and the API error
`ExchangeRate-API error: <result>`, which carries the reason the provider reported in `result`,
whatever the rate table holds (also an entry for `to`); when the cache lookup failed, `Convert`
with an amount `> 0` then returns that error, wrapped, with result 0 and rate 0. Every error that
`Convert` returns comes with result 0 and rate 0. -/
theorem fetchRate_api_error (s : CurrencyService) (lib : Lib) (cFrom cTo : GoString)
    (status body : GoString) (resp : ApiResponse)
    (hreq : lib.newRequest (apiURL s.config cFrom) = none)
    (hresp : s.httpClient (apiURL s.config cFrom) = .response 200 status body none)
    (hjson : lib.jsonUnmarshal body = .ok resp)
    (hres : resp.Result ≠ go "success") :
    (∃ e, (s.FetchRateFromAPI lib cFrom cTo).out = .ret (Float64.zero, some e) ∧
      e.Error = go "ExchangeRate-API error: " ++ resp.Result ∧
      Contains e.Error resp.Result = true ∧
      (∀ (amount v0 : Float64) (ce : GoError),
        len cFrom = 3 → len cTo = 3 → ToUpper lib cFrom ≠ ToUpper lib cTo →
        Float64.lt Float64.zero amount = true →
        (RedisClient.GetExchangeRate s.redis lib cFrom cTo).out = .ret (v0, some ce) →
        (s.Convert lib cFrom cTo amount).out
          = .ret (Float64.zero, Float64.zero,
              some (.wrapped (go "failed to get rate from API: ") e)))) ∧
    (∀ (s' : CurrencyService) (lib' : Lib) (f t : GoString) (amount res rate : Float64)
      (e' : GoError),
      (s'.Convert lib' f t amount).out = .ret (res, rate, some e') →
      res = Float64.zero ∧ rate = Float64.zero) := by
  have hfetch : (s.FetchRateFromAPI lib cFrom cTo).out
      = .ret (Float64.zero, some (.errorf (go "ExchangeRate-API error: " ++ resp.Result))) := by
    simp only [CurrencyService.FetchRateFromAPI, hreq, hresp, hjson, hres, ne_eq,
      not_true_eq_false, not_false_eq_true, if_true, if_false]
  refine ⟨⟨_, hfetch, rfl, Contains_append_self _ _, ?_⟩, ?_⟩
  · intro amount v0 ce hf ht hne hpos hmiss
    have hrate : (s.GetExchangeRate lib cFrom cTo).out = .ret (Float64.zero,
        some (.wrapped (go "failed to get rate from API: ")
          (.errorf (go "ExchangeRate-API error: " ++ resp.Result)))) := by
      rw [getExchangeRate_resolve s lib cFrom cTo hf ht hne]
      simp only [hmiss, hfetch]
    rw [convert_of_error s lib cFrom cTo amount _ _ (lt_zero_not_le amount hpos) hrate]
  · intro s' lib' f t amount res rate e' h
    exact convert_error_zero s' lib' f t amount res rate e' h

theorem fetchRate_api_error_witness :
    (∃ e, (Fixture.originError.FetchRateFromAPI Fixture.webLib (go "USD") (go "EUR")).out
        = .ret (Float64.zero, some e) ∧
      e.Error = go "ExchangeRate-API error: " ++ go "error" ∧
      (Fixture.originError.Convert Fixture.webLib (go "USD") (go "EUR") Float64.c10).out
        = .ret (Float64.zero, Float64.zero,
            some (.wrapped (go "failed to get rate from API: ") e))) ∧
    List.lookup (go "EUR") [(go "EUR", Float64.c0_9)] = some Float64.c0_9 := by
  obtain ⟨⟨e, h1, h2, _, h4⟩, _⟩ :=
    fetchRate_api_error Fixture.originError Fixture.webLib (go "USD") (go "EUR") (go "200 OK")
      Fixture.errorBody ⟨go "error", go "USD", [(go "EUR", Float64.c0_9)]⟩ rfl rfl rfl
      (by decide)
  exact ⟨⟨e, h1, h2, h4 Float64.c10 Float64.zero
    (.errorf (go "exchange rate not found for " ++ go "USD" ++ go " to " ++ go "EUR"))
    (by decide) (by decide) (by decide) (by decide) (by decide)⟩, by decide⟩

/-- C12: `GetExchangeRate`, `SetExchangeRate` and `DeleteExchangeRate` of the Redis client send
their one command for a pair `(from, to)` under the same key `rate:<from>:<to>`; on codes of 3
characters (bytes) the key determines `from` and `to`, so for `from != to` the keys of
`(from, to)` and `(to, from)` differ; and for every other pair `(f, t)` of such codes, what
`GetExchangeRate(f, t)` returns from a server is the same before and after the commands of a
`SetExchangeRate` or a `DeleteExchangeRate` on `(from, to)`. -/
theorem rateKey_directional (r : RedisClient) (lib : Lib) (fmt : Float64 → GoString)
    (st : Store) (cfg : RedisConfig) (cFrom cTo f t : GoString) (rate : Float64)
    (hf : len cFrom = 3) (ht : len cTo = 3) (hf' : len f = 3) :
    ((RedisClient.GetExchangeRate (some r) lib cFrom cTo).trace.filter Event.isRedisCommand
        = [.redisGet (go "rate:" ++ cFrom ++ go ":" ++ cTo)] ∧
      (RedisClient.SetExchangeRate (some r) cFrom cTo rate).trace.filter Event.isRedisCommand
        = [.redisSet (go "rate:" ++ cFrom ++ go ":" ++ cTo) rate r.config.TTL] ∧
      (RedisClient.DeleteExchangeRate (some r) cFrom cTo).trace.filter Event.isRedisCommand
        = [.redisDel (go "rate:" ++ cFrom ++ go ":" ++ cTo)]) ∧
    (rateKey cFrom cTo = rateKey f t → cFrom = f ∧ cTo = t) ∧
    (cFrom ≠ cTo → rateKey cFrom cTo ≠ rateKey cTo cFrom) ∧
    ((f, t) ≠ (cFrom, cTo) →
      RedisClient.GetExchangeRate
          (some ⟨(Store.after fmt st
            (RedisClient.SetExchangeRate (some r) cFrom cTo rate).trace).conn, cfg⟩) lib f t
        = RedisClient.GetExchangeRate (some ⟨st.conn, cfg⟩) lib f t ∧
      RedisClient.GetExchangeRate
          (some ⟨(Store.after fmt st
            (RedisClient.DeleteExchangeRate (some r) cFrom cTo).trace).conn, cfg⟩) lib f t
        = RedisClient.GetExchangeRate (some ⟨st.conn, cfg⟩) lib f t) := by
  refine ⟨⟨?_, ?_, ?_⟩, ?_, ?_, ?_⟩
  · unfold RedisClient.GetExchangeRate
    simp only []
    split
    · simp [List.filter, Event.isRedisCommand, rateKey]
    · simp [List.filter, Event.isRedisCommand, rateKey]
    · split <;> simp [List.filter, Event.isRedisCommand, rateKey]
  · unfold RedisClient.SetExchangeRate
    simp only []
    split <;> simp [List.filter, Event.isRedisCommand, rateKey]
  · unfold RedisClient.DeleteExchangeRate
    simp only []
    split <;> simp [List.filter, Event.isRedisCommand, rateKey]
  · exact rateKey_injective cFrom cTo f t hf hf'
  · intro hne h
    exact hne (rateKey_injective cFrom cTo cTo cFrom hf ht h).1
  · intro hne
    have hk : rateKey f t ≠ rateKey cFrom cTo := by
      intro h
      have h2 := rateKey_injective f t cFrom cTo hf' hf h
      exact hne (by rw [h2.1, h2.2])
    exact ⟨cacheLookup_of_store _ _ cfg lib f t (store_after_set fmt st r _ _ rate _ hk),
      cacheLookup_of_store _ _ cfg lib f t (store_after_delete fmt st r _ _ _ hk)⟩

theorem rateKey_directional_witness :
    rateKey (go "USD") (go "EUR") ≠ rateKey (go "EUR") (go "USD") ∧
    RedisClient.GetExchangeRate
        (some ⟨(Store.after (fun _ => go "0.9") Fixture.store
          (RedisClient.SetExchangeRate (some ⟨Fixture.store.conn, Fixture.config.Redis⟩)
            (go "USD") (go "EUR") Float64.c0_9).trace).conn, Fixture.config.Redis⟩)
        Fixture.webLib (go "EUR") (go "USD")
      = RedisClient.GetExchangeRate (some ⟨Fixture.store.conn, Fixture.config.Redis⟩)
          Fixture.webLib (go "EUR") (go "USD") :=
  ⟨(rateKey_directional ⟨Fixture.store.conn, Fixture.config.Redis⟩ Fixture.webLib
      (fun _ => go "0.9") Fixture.store Fixture.config.Redis (go "USD") (go "EUR") (go "EUR")
      (go "USD") Float64.c0_9 (by decide) (by decide) (by decide)).2.2.1
      (by decide),
   ((rateKey_directional ⟨Fixture.store.conn, Fixture.config.Redis⟩ Fixture.webLib
      (fun _ => go "0.9") Fixture.store Fixture.config.Redis (go "USD") (go "EUR") (go "EUR")
      (go "USD") Float64.c0_9 (by decide) (by decide) (by decide)).2.2.2
      (by decide)).1⟩

/-- C13: for every request `GET /convert` in which `from` or `to` is missing or not exactly 3
characters long, or `amount` is missing, does not parse as a number, or is below 0.01 (every
negative amount included), the handler responds with status 400 and the body
`error: "Invalid request"` with details that are not empty, and makes no call of the currency
service, whatever the service is. -/
theorem handler_rejects_invalid_query (lib : Lib) (currencyService : CurrencyServiceInterface)
    (q : Query) (hlib : lib.parseErrorsHaveText) (hbad : q.Invalid lib) :
    ∃ details, details ≠ [] ∧
      CurrencyHandler.Convert lib currencyService q
        = ⟨[], [], .ret ⟨400, .error ⟨go "Invalid request", [], details⟩⟩⟩ := by
  obtain ⟨e, he, hne⟩ := bind_rejects lib q hlib hbad
  exact ⟨e.Error, hne, by simp only [CurrencyHandler.Convert, he, cJSON_error]⟩

theorem handler_rejects_invalid_query_witness :
    ∃ details, details ≠ [] ∧
      CurrencyHandler.Convert Fixture.webLib (Fixture.fresh.asInterface Fixture.webLib)
          Fixture.shortCodeQuery
        = ⟨[], [], .ret ⟨400, .error ⟨go "Invalid request", [], details⟩⟩⟩ :=
  handler_rejects_invalid_query Fixture.webLib (Fixture.fresh.asInterface Fixture.webLib)
    Fixture.shortCodeQuery webLib_parseErrorsHaveText
    (Or.inr (Or.inl ⟨go "US", rfl, by decide⟩))

/-- C15 (the code at any input): whatever the configuration and the outcome of the call, the
first two log entries of `FetchRateFromAPI`, both at error level, carry the API key: the field
`CurrencyKeyAPI` holds the key between brackets and the field `full_url` holds the URL with the
key in it, not masked. -/
theorem fetchRate_logs_api_key (s : CurrencyService) (lib : Lib) (cFrom cTo : GoString) :
    (∃ rest, (s.FetchRateFromAPI lib cFrom cTo).trace =
      Event.log .error (go "🔍 DEBUG - Проверка конфигурации:")
        [.str (go "CurrencyAPIURL") s.config.API.CurrencyAPIURL,
         .str (go "CurrencyKeyAPI") (go "[" ++ s.config.API.CurrencyKeyAPI ++ go "]"),
         .int (go "KeyLength") (len s.config.API.CurrencyKeyAPI)] ::
      Event.log .error (go "🔍 DEBUG - Сформированный URL:")
        [.str (go "full_url") (apiURL s.config cFrom)] :: rest) ∧
    Field.carries s.config.API.CurrencyKeyAPI
      (.str (go "CurrencyKeyAPI") (go "[" ++ s.config.API.CurrencyKeyAPI ++ go "]")) = true ∧
    Field.carries s.config.API.CurrencyKeyAPI (.str (go "full_url") (apiURL s.config cFrom))
      = true ∧
    (∃ e ∈ (s.FetchRateFromAPI lib cFrom cTo).trace,
      Event.leaks s.config.API.CurrencyKeyAPI e = true) := by
  obtain ⟨rest, hrest⟩ := fetch_trace_prologue s lib cFrom cTo
  have h1 : Field.carries s.config.API.CurrencyKeyAPI
      (.str (go "CurrencyKeyAPI") (go "[" ++ s.config.API.CurrencyKeyAPI ++ go "]")) = true := by
    simp only [Field.carries, List.append_assoc]
    exact Contains_append_right _ _ _
  have h2 : Field.carries s.config.API.CurrencyKeyAPI
      (.str (go "full_url") (apiURL s.config cFrom)) = true := by
    simp only [Field.carries, apiURL, List.append_assoc]
    rw [← List.append_assoc]
    exact Contains_append_right _ _ _
  refine ⟨⟨_, by rw [hrest]; rfl⟩, h1, h2, ?_⟩
  refine ⟨_, by rw [hrest]; exact List.mem_append_left _ (List.mem_cons_self _ _), ?_⟩
  simp only [Event.leaks, List.any_cons, h1, Bool.or_true, Bool.true_or]

/-- C17, as stated, fails: with the text `-1` cached for `(USD, EUR)`,
`GetExchangeRate("USD", "EUR")` returns `(-1, nil)`, which is not a positive number, and
`Convert("USD", "EUR", 10)` succeeds with the result `-10`. Also a positive finite rate does not
make the result positive: the float64 product of `0.25` and the smallest positive rate is `0`. -/
theorem getExchangeRate_negative_rate :
    (Fixture.cachedNegative.GetExchangeRate Fixture.webLib (go "USD") (go "EUR")).out
      = .ret (Fixture.minusOne, none) ∧
    Fixture.minusOne.isPositiveFinite = false ∧
    Float64.lt Float64.zero Float64.c10 = true ∧
    (Fixture.cachedNegative.Convert Fixture.webLib (go "USD") (go "EUR") Float64.c10).out
      = .ret (Fixture.minusTen, Fixture.minusOne, none) ∧
    Float64.lt Float64.zero Fixture.minusTen = false ∧
    Float64.lt Float64.zero Fixture.quarter = true ∧
    Fixture.tiny.isPositiveFinite = true ∧
    Float64.mul Fixture.quarter Fixture.tiny = Float64.zero := by
  decide

/-- C17, amended: every rate that `GetExchangeRate` returns with a nil error is `1.0`, or the
number parsed from the cache entry of the pair, or the entry for `to` in the rate table of the
upstream response, returned as it is: it is a positive finite number when that cache content or
table entry is one, and nothing checks it. For an amount `> 0` a successful `Convert` returns
that rate and the float64 product `amount * rate`, which for a positive finite rate is not
negative and not NaN. -/
theorem getExchangeRate_rate_origin (s : CurrencyService) (lib : Lib) (cFrom cTo : GoString)
    (rate : Float64) (hout : (s.GetExchangeRate lib cFrom cTo).out = .ret (rate, none)) :
    (rate = Float64.one ∨
      (∃ r txt, s.redis = some r ∧ r.client.get (rateKey cFrom cTo) = .value txt ∧
        lib.parseFloat txt = .ok rate) ∨
      (∃ status body resp,
        s.httpClient (apiURL s.config cFrom) = .response 200 status body none ∧
        lib.jsonUnmarshal body = .ok resp ∧ resp.ConversionRates.lookup cTo = some rate)) ∧
    (∀ amount res rate', Float64.lt Float64.zero amount = true →
      (s.Convert lib cFrom cTo amount).out = .ret (res, rate', none) →
      rate' = rate ∧ res = Float64.mul amount rate ∧
      (rate.isPositiveFinite = true → Float64.le Float64.zero res = true)) := by
  constructor
  · rcases getExchangeRate_ok_inv s lib cFrom cTo rate hout with h | h | h
    · exact Or.inl h
    · obtain ⟨c, txt, h1, h2, h3⟩ := cacheLookup_ok_inv s.redis lib cFrom cTo rate h
      exact Or.inr (Or.inl ⟨c, txt, h1, h2, h3⟩)
    · obtain ⟨status, body, resp, h1, h2, _, h4⟩ := fetch_ok_inv s lib cFrom cTo rate h
      exact Or.inr (Or.inr ⟨status, body, resp, h1, h2, h4⟩)
  · intro amount res rate' hpos hconv
    obtain ⟨hg, hres⟩ := convert_ok_inv s lib cFrom cTo amount res rate' hconv
    rw [hout] at hg
    simp only [Outcome.ret.injEq, Prod.mk.injEq, and_true] at hg
    subst hg
    exact ⟨rfl, hres, fun hr => hres ▸ mul_nonneg amount rate hpos hr⟩

theorem getExchangeRate_rate_origin_witness :
    (Float64.c0_85 = Float64.one ∨
      (∃ r txt, Fixture.cached.redis = some r ∧
        r.client.get (rateKey (go "USD") (go "EUR")) = .value txt ∧
        Fixture.webLib.parseFloat txt = .ok Float64.c0_85) ∨
      (∃ status body resp,
        Fixture.cached.httpClient (apiURL Fixture.cached.config (go "USD"))
          = .response 200 status body none ∧
        Fixture.webLib.jsonUnmarshal body = .ok resp ∧
        resp.ConversionRates.lookup (go "EUR") = some Float64.c0_85)) ∧
    Float64.le Float64.zero Float64.c85 = true := by
  obtain ⟨h1, h2⟩ := getExchangeRate_rate_origin Fixture.cached Fixture.webLib (go "USD")
    (go "EUR") Float64.c0_85 (by decide)
  exact ⟨h1, (h2 Float64.c100 Float64.c85 Float64.c0_85 (by decide) (by decide)).2.2
    (by decide)⟩

/-- C18, as stated, fails: `usd` and `eur` are case variants of `USD` and `EUR`; against the
same cache (holding `0.85` for `(USD, EUR)`) and the same upstream table (`EUR: 0.9`),
`GetExchangeRate("USD", "EUR")` reads the key `rate:USD:EUR` and returns `(0.85, nil)`, while
`GetExchangeRate("usd", "eur")` reads the key `rate:usd:eur`, misses, and fails because the
table has no entry `eur`. -/
theorem getExchangeRate_case_sensitive :
    EqualFoldASCII (go "usd") (go "USD") = true ∧
    EqualFoldASCII (go "eur") (go "EUR") = true ∧
    (Fixture.cachedHealthy.GetExchangeRate Fixture.webLib (go "USD") (go "EUR")).out
      = .ret (Float64.c0_85, none) ∧
    (Fixture.cachedHealthy.GetExchangeRate Fixture.webLib (go "USD") (go "EUR")).trace.filter
      Event.isCacheLookup = [.redisGet (go "rate:USD:EUR")] ∧
    (Fixture.cachedHealthy.GetExchangeRate Fixture.webLib (go "usd") (go "eur")).out
      = .ret (Float64.zero, some (.wrapped (go "failed to get rate from API: ")
          (.errorf (go "currency eur not found in API response")))) ∧
    (Fixture.cachedHealthy.GetExchangeRate Fixture.webLib (go "usd") (go "eur")).trace.filter
      Event.isCacheLookup = [.redisGet (go "rate:usd:eur")] := by
  decide

/-- C18, amended: currency codes are compared ignoring case in the same-currency check of
`GetExchangeRate` only: for codes `from`, `to` of 3 ASCII characters and case variants `from'`,
`to'` of them, `GetExchangeRate(from', to')` returns `(1.0, nil)` without any event when
`from` and `to` are equal ignoring case. Otherwise the call reads the cache under the key
`rate:<from'>:<to'>` built from the codes as they are given, which is the key of `(from, to)`
only when the codes are identical, and the origin fetch looks up the table entry under `to'` as
it is given. -/
theorem getExchangeRate_case_variants (s : CurrencyService) (lib : Lib)
    (f t f' t' : GoString) (hf : len f = 3) (ht : len t = 3) (hf' : len f' = 3)
    (ht' : len t' = 3) (hcf : EqualFoldASCII f' f = true) (hct : EqualFoldASCII t' t = true) :
    (ToUpper lib f = ToUpper lib t →
      s.GetExchangeRate lib f' t' = ⟨[], .ret (Float64.one, none)⟩ ∧
      s.GetExchangeRate lib f t = ⟨[], .ret (Float64.one, none)⟩) ∧
    (ToUpper lib f ≠ ToUpper lib t → ∀ r, s.redis = some r →
      (s.GetExchangeRate lib f' t').trace.filter Event.isCacheLookup
        = [.redisGet (go "rate:" ++ f' ++ go ":" ++ t')] ∧
      (s.GetExchangeRate lib f t).trace.filter Event.isCacheLookup
        = [.redisGet (go "rate:" ++ f ++ go ":" ++ t)]) ∧
    (rateKey f' t' = rateKey f t → f' = f ∧ t' = t) ∧
    (∀ status body resp, lib.newRequest (apiURL s.config f') = none →
      s.httpClient (apiURL s.config f') = .response 200 status body none →
      lib.jsonUnmarshal body = .ok resp → resp.Result = go "success" →
      (s.FetchRateFromAPI lib f' t').out =
        match resp.ConversionRates.lookup t' with
        | some rate => .ret (rate, none)
        | none => .ret (Float64.zero, some (.errorf
            (go "currency " ++ t' ++ go " not found in API response")))) := by
  have hF := ToUpper_eq_of_EqualFoldASCII lib f' f hcf
  have hT := ToUpper_eq_of_EqualFoldASCII lib t' t hct
  refine ⟨?_, ?_, ?_, ?_⟩
  · intro h
    exact ⟨getExchangeRate_equal s lib f' t' hf' ht' (by rw [hF, hT, h]),
      getExchangeRate_equal s lib f t hf ht h⟩
  · intro h r hr
    have h' : ToUpper lib f' ≠ ToUpper lib t' := by rw [hF, hT]; exact h
    exact ⟨getExchangeRate_lookup_key s lib f' t' r hr hf' ht' h',
      getExchangeRate_lookup_key s lib f t r hr hf ht h⟩
  · exact rateKey_injective f' t' f t hf' hf
  · intro status body resp hreq hresp hjson hok
    cases hl : resp.ConversionRates.lookup t' with
    | none =>
      simp only [CurrencyService.FetchRateFromAPI, hreq, hresp, hjson, hok, hl, ne_eq,
        not_true_eq_false, if_false]
    | some rate =>
      simp only [CurrencyService.FetchRateFromAPI, hreq, hresp, hjson, hok, hl, ne_eq,
        not_true_eq_false, if_false]

theorem getExchangeRate_case_variants_witness :
    ((Fixture.cachedHealthy.GetExchangeRate Fixture.webLib (go "usd") (go "eur")).trace.filter
        Event.isCacheLookup = [.redisGet (go "rate:" ++ go "usd" ++ go ":" ++ go "eur")] ∧
      (Fixture.cachedHealthy.GetExchangeRate Fixture.webLib (go "USD") (go "EUR")).trace.filter
        Event.isCacheLookup = [.redisGet (go "rate:" ++ go "USD" ++ go ":" ++ go "EUR")]) ∧
    (Fixture.cachedHealthy.FetchRateFromAPI Fixture.webLib (go "usd") (go "eur")).out =
      match List.lookup (go "eur") [(go "EUR", Float64.c0_9)] with
      | some rate => .ret (rate, none)
      | none => .ret (Float64.zero, some (.errorf
          (go "currency " ++ go "eur" ++ go " not found in API response"))) :=
  ⟨(getExchangeRate_case_variants Fixture.cachedHealthy Fixture.webLib (go "USD") (go "EUR")
      (go "usd") (go "eur") (by decide) (by decide) (by decide) (by decide) (by decide)
      (by decide)).2.1 (ToUpper_USD_ne_EUR _) ⟨Fixture.cachedConn, Fixture.config.Redis⟩ rfl,
   (getExchangeRate_case_variants Fixture.cachedHealthy Fixture.webLib (go "USD") (go "EUR")
      (go "usd") (go "eur") (by decide) (by decide) (by decide) (by decide) (by decide)
      (by decide)).2.2.2 (go "200 OK") Fixture.body
      ⟨go "success", go "USD", [(go "EUR", Float64.c0_9)]⟩ rfl rfl rfl rfl⟩

end CurrencyConverter
